import Mathlib

/-!
# Facet primitives (krino), coarse search (stk_search), modifier adaptor (Tempus), aprepro

Shallow embedding of

* `packages/krino/krino/surface/Akri_Facet.cpp`: the facet / bounding-box
  overlap primitive `does_bounding_box_intersect_facet` and its callers
  `Facet2d::does_intersect`, `Facet3d::does_intersect`, the bounding-box
  extraction `insert_into` and the buffer serialization of facets;
* the scenarios of `packages/stk/stk_unit_tests/stk_search/UnitTestCoarseSearch2.cpp`;
* `packages/tempus/src/Tempus_StepperOperatorSplitModifierXBase.hpp`: `execute`;
* `packages/seacas/applications/aprepro/aprepro.C`: the file mode of `main`.

A C++ `double` is embedded as a rational number: the code under study only
compares coordinates and combines them with `+`, `-`, `*`, and every finite
double is a rational.  NaN and rounding are outside the embedding.
-/

namespace krino

/-! ## Data model of `Akri_Facet.cpp` -/

/-- Three `double` components, as `stk::math::Vector3d`. -/
structure Vector3d where
  c0 : ℚ
  c1 : ℚ
  c2 : ℚ
  deriving DecidableEq, Repr

/-- The component read `v[i]` (equivalently `v.data()[i]`); the source only
reads components `0`, `1`, `2`. -/
def Vector3d.data (v : Vector3d) (i : Nat) : ℚ :=
  match i with
  | 0 => v.c0
  | 1 => v.c1
  | _ => v.c2

/-- The part of `krino::BoundingBox` the source reads: `get_min()` and
`get_max()`.  The class itself is declared in `Akri_BoundingBox.hpp`. -/
structure BoundingBox where
  get_min : Vector3d
  get_max : Vector3d
  deriving DecidableEq, Repr

/-- `Facet3d`: its member `myCoords`, three vertices. -/
structure Facet3d where
  v0 : Vector3d
  v1 : Vector3d
  v2 : Vector3d
  deriving DecidableEq, Repr

/-- `Facet2d`: its member `myCoords`, two vertices. -/
structure Facet2d where
  v0 : Vector3d
  v1 : Vector3d
  deriving DecidableEq, Repr

/-! ## The overlap primitive -/

/-- `are_all_components_lo(bboxMin, points, comp)`: the loop over the `N`
points returns `false` at the first point with `points[i][comp] >= bboxMin[comp]`
and `true` when it runs to the end. -/
def are_all_components_lo (bboxMin : Nat → ℚ) (points : List (Nat → ℚ)) (comp : Nat) : Bool :=
  match points with
  | [] => true
  | p :: rest =>
    if p comp ≥ bboxMin comp then false
    else are_all_components_lo bboxMin rest comp

/-- `are_all_components_hi(bboxMax, points, comp)`: the loop returns `false`
at the first point with `points[i][comp] <= bboxMax[comp]`. -/
def are_all_components_hi (bboxMax : Nat → ℚ) (points : List (Nat → ℚ)) (comp : Nat) : Bool :=
  match points with
  | [] => true
  | p :: rest =>
    if p comp ≤ bboxMax comp then false
    else are_all_components_hi bboxMax rest comp

/-- The body of the `for (comp = ...; comp < ndim; ++comp)` loop of
`does_bounding_box_intersect_facet`, run over the components still to visit. -/
def does_bounding_box_intersect_facet_loop (bbox : BoundingBox) (points : List (Nat → ℚ)) :
    List Nat → Bool
  | [] => true
  | comp :: rest =>
    if are_all_components_lo bbox.get_min.data points comp ||
        are_all_components_hi bbox.get_max.data points comp then false
    else does_bounding_box_intersect_facet_loop bbox points rest

/-- `does_bounding_box_intersect_facet(bbox, points, ndim)`. -/
def does_bounding_box_intersect_facet (bbox : BoundingBox) (points : List (Nat → ℚ))
    (ndim : Nat) : Bool :=
  does_bounding_box_intersect_facet_loop bbox points (List.range ndim)

/-- `Facet3d::does_intersect(bbox)`. -/
def Facet3d.does_intersect (f : Facet3d) (bbox : BoundingBox) : Bool :=
  does_bounding_box_intersect_facet bbox [f.v0.data, f.v1.data, f.v2.data] 3

/-- `Facet2d::does_intersect(bbox)`. -/
def Facet2d.does_intersect (f : Facet2d) (bbox : BoundingBox) : Bool :=
  does_bounding_box_intersect_facet bbox [f.v0.data, f.v1.data] 2

end krino

namespace stk_search

/-! ## Data model of the coarse search

`coarse_search`, the bounding-volume types and `generateBoundingVolume` are
declared in `stk_search/CoarseSearch.hpp`, `stk_search/BoundingBox.hpp`,
`stk_search/IdentProc.hpp` and `stk_unit_test_utils/Search_UnitTestUtils.hpp`;
the source embedded here is their caller, `UnitTestCoarseSearch2.cpp`.  The
search itself is modelled from the specification, section by section.
-/

/-- Modelled from the spec: the `Point` of `stk_search/BoundingBox.hpp`, three
`double` coordinates (a two-dimensional point has `z = 0`). -/
structure Point where
  x : ℚ
  y : ℚ
  z : ℚ
  deriving DecidableEq, Repr

/-- Coordinate `d` of a point (`d = 0, 1, 2`). -/
def Point.coord (p : Point) (d : Nat) : ℚ :=
  match d with
  | 0 => p.x
  | 1 => p.y
  | _ => p.z

/-- Modelled from the spec: the `Sphere` of `stk_search/BoundingBox.hpp`, centre
and radius.  A negative radius is a malformed bounding volume, which never
reaches the search (spec section 7): the radius carries its sign condition. -/
structure Sphere where
  center : Point
  radius : ℚ
  radius_nonneg : 0 ≤ radius

/-- Modelled from the spec: the axis-aligned box of `stk_search/BoundingBox.hpp`
(`StkBox` in the tests), its minimum and maximum corner.  A box with
`min > max` in some dimension is a malformed bounding volume, which never reaches
the search (spec section 7): the corners carry their order. -/
structure StkBox where
  min_corner : Point
  max_corner : Point
  ordered : min_corner.x ≤ max_corner.x ∧ min_corner.y ≤ max_corner.y ∧
    min_corner.z ≤ max_corner.z

/-- Modelled from the spec: a bounding volume is a tagged union of point, sphere
and axis-aligned box (spec section 3). -/
inductive BoundingVolume where
  | point (p : Point)
  | sphere (s : Sphere)
  | box (b : StkBox)

/-- Modelled from the spec: the `Ident` of `stk_search/IdentProc.hpp`, a global
id and the owning process (spec section 3, Identifier). -/
structure Ident where
  id : Int
  proc : Nat
  deriving DecidableEq, Repr

/-- A tagged volume, `std::pair<Volume, Ident>` in the tests. -/
abbrev TaggedVolume := BoundingVolume × Ident

/-- An overlap pair, `std::pair<Ident, Ident>` in the tests: the identifier from
the first collection, then the one from the second. -/
abbrev IdentPair := Ident × Ident

/-- Modelled from the spec: `stk::search::SearchMethod` (spec section 6). -/
inductive SearchMethod where
  | KDTREE
  | LINEAR
  deriving DecidableEq, Repr

/-- Modelled from the spec: the error taxonomy of spec section 7. -/
inductive SearchError where
  | InvalidInput
  | CommunicationFailure
  | ResourceExhaustion
  deriving DecidableEq, Repr

/-! ## Bounding volume predicates (spec section 4.1) -/

/-- The per-dimension loop of the box-box test: it fails at the first
dimension in which the closed intervals are separated. -/
def StkBox.overlapsFrom (a b : StkBox) : List Nat → Bool
  | [] => true
  | d :: rest =>
    if a.min_corner.coord d ≤ b.max_corner.coord d ∧
        b.min_corner.coord d ≤ a.max_corner.coord d then
      StkBox.overlapsFrom a b rest
    else false

/-- Modelled from the spec: `overlaps(boxA, boxB)` of spec section 4.1, closed
intervals in every dimension. -/
def StkBox.overlaps (a b : StkBox) : Bool :=
  StkBox.overlapsFrom a b [0, 1, 2]

/-- The smallest box holding two boxes. -/
def StkBox.union (a b : StkBox) : StkBox where
  min_corner := ⟨min a.min_corner.x b.min_corner.x, min a.min_corner.y b.min_corner.y,
    min a.min_corner.z b.min_corner.z⟩
  max_corner := ⟨max a.max_corner.x b.max_corner.x, max a.max_corner.y b.max_corner.y,
    max a.max_corner.z b.max_corner.z⟩
  ordered :=
    ⟨le_trans (min_le_left _ _) (le_trans a.ordered.1 (le_max_left _ _)),
     le_trans (min_le_left _ _) (le_trans a.ordered.2.1 (le_max_left _ _)),
     le_trans (min_le_left _ _) (le_trans a.ordered.2.2 (le_max_left _ _))⟩

/-- Box `u` holds box `b`. -/
def StkBox.covers (u b : StkBox) : Prop :=
  (u.min_corner.x ≤ b.min_corner.x ∧ b.max_corner.x ≤ u.max_corner.x) ∧
  (u.min_corner.y ≤ b.min_corner.y ∧ b.max_corner.y ≤ u.max_corner.y) ∧
  (u.min_corner.z ≤ b.min_corner.z ∧ b.max_corner.z ≤ u.max_corner.z)

/-- The union bounding box of a sequence of boxes; none for the empty sequence. -/
def unionAll : List StkBox → Option StkBox
  | [] => none
  | b :: rest =>
    match unionAll rest with
    | none => some b
    | some u => some (b.union u)

/-- Modelled from the spec: the enclosing axis-aligned box of a bounding volume
(spec sections 3 and 4.1). -/
def enclosingBox : BoundingVolume → StkBox
  | .point p => ⟨p, p, le_refl _, le_refl _, le_refl _⟩
  | .sphere s =>
    { min_corner := ⟨s.center.x - s.radius, s.center.y - s.radius, s.center.z - s.radius⟩
      max_corner := ⟨s.center.x + s.radius, s.center.y + s.radius, s.center.z + s.radius⟩
      ordered := by
        have h := s.radius_nonneg
        refine ⟨?_, ?_, ?_⟩ <;> simp only <;> linarith }
  | .box b => b

/-- Squared distance of two points. -/
def squaredDistance (p q : Point) : ℚ :=
  (p.x - q.x) * (p.x - q.x) + (p.y - q.y) * (p.y - q.y) + (p.z - q.z) * (p.z - q.z)

/-- Modelled from the spec: the exact overlap predicate of spec sections 3, 4.1
and 4.3.  When an operand is a box the enclosing boxes are compared (box-box,
point-in-box); two non-box shapes are compared by squared centre distance
against the squared sum of radii, a point being a sphere of radius zero. -/
def overlaps : BoundingVolume → BoundingVolume → Bool
  | .point p, .point q => decide (squaredDistance p q ≤ 0)
  | .point p, .sphere s => decide (squaredDistance p s.center ≤ s.radius * s.radius)
  | .sphere s, .point p => decide (squaredDistance s.center p ≤ s.radius * s.radius)
  | .sphere s, .sphere t =>
    decide (squaredDistance s.center t.center ≤ (s.radius + t.radius) * (s.radius + t.radius))
  | .box a, v => a.overlaps (enclosingBox v)
  | v, .box b => (enclosingBox v).overlaps b

/-! ## Spatial index (spec section 4.2) -/

/-- Centre of the enclosing box of a tagged volume along an axis. -/
def centerCoord (axis : Nat) (v : TaggedVolume) : ℚ :=
  ((enclosingBox v.1).min_corner.coord axis + (enclosingBox v.1).max_corner.coord axis) / 2

/-- Modelled from the spec: the k-d tree of spec section 4.2.  Every node
holds the union bounding box of its subtree; an internal node also holds its
splitting axis and splitting value. -/
inductive KdTree where
  | leaf (bounds : Option StkBox) (volumes : List TaggedVolume)
  | node (axis : Nat) (split : ℚ) (bounds : Option StkBox) (left right : KdTree)

/-- The union bounding box stored at the root of a subtree. -/
def KdTree.bounds : KdTree → Option StkBox
  | .leaf b _ => b
  | .node _ _ b _ _ => b

/-- Modelled from the spec: the leaf threshold, "a small constant number of
volumes" (spec section 4.2). -/
def leafThreshold : Nat := 4

/-- Modelled from the spec: construction of the k-d tree (spec section 4.2).
The volumes are sorted by the centre of their enclosing box along the
splitting axis and cut at the median; the axis advances round-robin; a branch
ends when it holds fewer than `threshold` volumes.  The first argument bounds
the depth; `KdTree.build` passes the number of volumes. -/
def KdTree.buildAux (threshold : Nat) : Nat → Nat → List TaggedVolume → KdTree
  | 0, _, vols => .leaf (unionAll (vols.map fun v => enclosingBox v.1)) vols
  | depth + 1, axis, vols =>
    if vols.length < threshold then
      .leaf (unionAll (vols.map fun v => enclosingBox v.1)) vols
    else
      let sorted := vols.insertionSort (fun u v => centerCoord axis u ≤ centerCoord axis v)
      let lower := sorted.take (sorted.length / 2)
      let upper := sorted.drop (sorted.length / 2)
      let split := match upper with
        | [] => 0
        | v :: _ => centerCoord axis v
      .node axis split (unionAll (vols.map fun v => enclosingBox v.1))
        (KdTree.buildAux threshold depth ((axis + 1) % 3) lower)
        (KdTree.buildAux threshold depth ((axis + 1) % 3) upper)

/-- The k-d tree over a collection. -/
def KdTree.build (vols : List TaggedVolume) : KdTree :=
  KdTree.buildAux leafThreshold vols.length 0 vols

/-- Whether a union bounding box, if there is one, overlaps a query box. -/
def boundsOverlap (bounds : Option StkBox) (q : StkBox) : Bool :=
  match bounds with
  | none => false
  | some b => b.overlaps q

/-- Modelled from the spec: `query_overlapping` of spec section 4.2.  A child
is entered only when its union box overlaps the query box; at a leaf every
volume's enclosing box is tested against the query box.  The candidates are
returned with their shapes, for the exact test of the resolver. -/
def KdTree.query_overlapping : KdTree → StkBox → List TaggedVolume
  | .leaf _ vols, q => vols.filter fun v => (enclosingBox v.1).overlaps q
  | .node _ _ _ l r, q =>
    (if boundsOverlap l.bounds q then l.query_overlapping q else []) ++
    (if boundsOverlap r.bounds q then r.query_overlapping q else [])

/-! ## Local pairwise resolver (spec section 4.3) -/

/-- Modelled from the spec: the local pairwise resolver of spec section 4.3.
`KDTREE` indexes the smaller collection, queries it with the enclosing box of
every volume of the other one and applies the exact predicate to each
candidate; `LINEAR` compares every volume of the first collection with every
volume of the second.  A pair is always (identifier from the first collection,
identifier from the second). -/
def resolveLocal (method : SearchMethod) (collA collB : List TaggedVolume) : List IdentPair :=
  match method with
  | .LINEAR =>
    collA.flatMap fun a =>
      (collB.filter fun b => overlaps a.1 b.1).map fun b => (a.2, b.2)
  | .KDTREE =>
    if collA.length ≤ collB.length then
      let index := KdTree.build collA
      collB.flatMap fun b =>
        ((index.query_overlapping (enclosingBox b.1)).filter fun a => overlaps a.1 b.1).map
          fun a => (a.2, b.2)
    else
      let index := KdTree.build collB
      collA.flatMap fun a =>
        ((index.query_overlapping (enclosingBox a.1)).filter fun b => overlaps a.1 b.1).map
          fun b => (a.2, b.2)

/-! ## Distributed exchange coordinator (spec section 4.4) -/

/-- What one process passes to `coarse_search`: its part of the two collections. -/
structure ProcessInput where
  collectionA : List TaggedVolume
  collectionB : List TaggedVolume

/-- The input of process `rank` in a process group; the group is the list of
the inputs of its processes, by rank. -/
def processInput (comm : List ProcessInput) (rank : Nat) : ProcessInput :=
  comm.getD rank ⟨[], []⟩

/-- The whole first collection of a group: the local parts of all processes. -/
def gatherA (comm : List ProcessInput) : List TaggedVolume :=
  comm.flatMap fun inp => inp.collectionA

/-- The whole second collection of a group. -/
def gatherB (comm : List ProcessInput) : List TaggedVolume :=
  comm.flatMap fun inp => inp.collectionB

/-- The input of a process with its two collections exchanged: the call
`coarse_search(B, A, ...)` in place of `coarse_search(A, B, ...)`. -/
def ProcessInput.swap (inp : ProcessInput) : ProcessInput :=
  ⟨inp.collectionB, inp.collectionA⟩

/-- A tagged volume handed to another owner: same shape, same global id. -/
def moveToProcess (proc : Nat) (v : TaggedVolume) : TaggedVolume :=
  (v.1, ⟨v.2.id, proc⟩)

/-- The same logical volumes, all on a single process (rank 0). -/
def singleProcess (comm : List ProcessInput) : List ProcessInput :=
  [⟨(gatherA comm).map (moveToProcess 0), (gatherB comm).map (moveToProcess 0)⟩]

/-- The global ids of an overlap pair. -/
def globalIds (pr : IdentPair) : Int × Int :=
  (pr.1.id, pr.2.id)

/-- Modelled from the spec: the global envelope of a process, the union
bounding box of the enclosing boxes of all its local volumes (spec section 3).
Both collections are shipped in the volume exchange, so the envelope spans
both. -/
def globalEnvelope (inp : ProcessInput) : Option StkBox :=
  unionAll ((inp.collectionA ++ inp.collectionB).map fun v => enclosingBox v.1)

/-- Whether two envelopes overlap; an empty envelope overlaps nothing. -/
def envelopesOverlap (e1 e2 : Option StkBox) : Bool :=
  match e1, e2 with
  | some a, some b => a.overlaps b
  | _, _ => false

/-- Modelled from the spec: candidate determination, step 2 of spec section
4.4.  If the envelope of the destination overlaps the envelope of the sender,
the sender ships its local volumes whose enclosing box overlaps the
destination's envelope; otherwise nothing. -/
def sendList (src dst : ProcessInput) : ProcessInput :=
  if envelopesOverlap (globalEnvelope dst) (globalEnvelope src) then
    { collectionA := src.collectionA.filter fun v =>
        boundsOverlap (globalEnvelope dst) (enclosingBox v.1)
      collectionB := src.collectionB.filter fun v =>
        boundsOverlap (globalEnvelope dst) (enclosingBox v.1) }
  else ⟨[], []⟩

/-- Modelled from the spec: volume exchange, step 3 of spec section 4.4: what
process `rank` receives from the other processes of the group. -/
def received (comm : List ProcessInput) (rank : Nat) : ProcessInput :=
  let senders := (List.range comm.length).filter fun q => q ≠ rank
  { collectionA := senders.flatMap fun q =>
      (sendList (processInput comm q) (processInput comm rank)).collectionA
    collectionB := senders.flatMap fun q =>
      (sendList (processInput comm q) (processInput comm rank)).collectionB }

/-- Modelled from the spec: local resolution against received data, step 4 of
spec section 4.4: local against local and received, received against local. -/
def resolvedOn (method : SearchMethod) (comm : List ProcessInput) (rank : Nat) :
    List IdentPair :=
  let own := processInput comm rank
  let got := received comm rank
  resolveLocal method own.collectionA (own.collectionB ++ got.collectionB) ++
    resolveLocal method got.collectionA own.collectionB

/-- Modelled from the spec: result collection under symmetric delivery, step 5
of spec section 4.4 and section 6: process `rank` keeps, and is forwarded by
every other process, the resolved pairs of which it owns a half. -/
def delivered (method : SearchMethod) (comm : List ProcessInput) (rank : Nat) :
    List IdentPair :=
  (List.range comm.length).flatMap fun q =>
    (resolvedOn method comm q).filter fun pr => pr.1.proc = rank ∨ pr.2.proc = rank

/-! ## Result assembler (spec section 2) -/

/-- Total order of identifiers by (global id, owning process). -/
def Ident.le (a b : Ident) : Prop :=
  a.id < b.id ∨ (a.id = b.id ∧ a.proc ≤ b.proc)

instance (a b : Ident) : Decidable (Ident.le a b) := by
  unfold Ident.le
  exact inferInstance

/-- Order of overlap pairs, keyed by (identifier from A, identifier from B). -/
def IdentPair.le (p q : IdentPair) : Prop :=
  (Ident.le p.1 q.1 ∧ p.1 ≠ q.1) ∨ (p.1 = q.1 ∧ Ident.le p.2 q.2)

instance (p q : IdentPair) : Decidable (IdentPair.le p q) := by
  unfold IdentPair.le
  exact inferInstance

/-- Modelled from the spec: the result assembler of spec section 2: the pairs
without duplicates, in the order of their keys. -/
def assemble (pairs : List IdentPair) : List IdentPair :=
  pairs.dedup.insertionSort IdentPair.le

/-- Modelled from the spec: `stk::search::coarse_search(collectionA,
collectionB, method, comm, results)` of `stk_search/CoarseSearch.hpp`, as spec
sections 4 and 6 describe it: the result that process `rank` obtains when
every process of the group `comm` calls the search with its local input. -/
def coarse_search (method : SearchMethod) (comm : List ProcessInput) (rank : Nat) :
    List IdentPair :=
  assemble (delivered method comm rank)

/-- The results of all processes of a group, collected rank by rank. -/
def collectedResults (method : SearchMethod) (comm : List ProcessInput) : List IdentPair :=
  (List.range comm.length).flatMap fun rank => coarse_search method comm rank

/-! ## The scenarios of `UnitTestCoarseSearch2.cpp`

Each test function runs on every process of `MPI_COMM_WORLD`, builds its local
collections from its rank and calls `coarse_search`.  The embedding takes the
size of the group and the rank as arguments, builds the input of every rank and
returns what `coarse_search` hands to that rank. -/

/-- The template argument of `generateBoundingVolume` and of the scenarios. -/
inductive VolumeKind where
  | Point
  | Sphere
  | StkBox
  deriving DecidableEq, Repr

/-- The volume of a given kind around `(x, y, z)`: the point itself, the sphere of
radius `radius`, or the box of half-width `radius`. -/
def makeVolume (kind : VolumeKind) (x y z radius : ℚ) (h : 0 ≤ radius) : BoundingVolume :=
  match kind with
  | .Point => .point ⟨x, y, z⟩
  | .Sphere => .sphere ⟨⟨x, y, z⟩, radius, h⟩
  | .StkBox =>
    .box
      { min_corner := ⟨x - radius, y - radius, z - radius⟩
        max_corner := ⟨x + radius, y + radius, z + radius⟩
        ordered := by refine ⟨?_, ?_, ?_⟩ <;> simp only <;> linarith }

/-- Modelled from the spec: `generateBoundingVolume<T>(x, y, z, radius, id,
proc)` of `stk_unit_test_utils/Search_UnitTestUtils.hpp`: the point `(x, y, z)`,
the sphere of that centre and radius, or the box of that centre and half-width
`radius`, tagged `(id, proc)`.  A negative radius gives a malformed sphere or
box: `InvalidInput` (spec section 7). -/
def generateBoundingVolume (kind : VolumeKind) (x y z radius : ℚ) (id : Int) (proc : Nat) :
    Except SearchError TaggedVolume :=
  match kind with
  | .Point => .ok (.point ⟨x, y, z⟩, ⟨id, proc⟩)
  | .Sphere =>
    if h : 0 ≤ radius then .ok (makeVolume .Sphere x y z radius h, ⟨id, proc⟩)
    else .error .InvalidInput
  | .StkBox =>
    if h : 0 ≤ radius then .ok (makeVolume .StkBox x y z radius h, ⟨id, proc⟩)
    else .error .InvalidInput

/-- The local collections `boxVector1`, `boxVector2` of `runTwoSpheresTest` on
process `procId`. -/
def twoSpheresInput (distanceBetweenSphereCenters radius : ℚ) (procId : Nat) :
    Except SearchError ProcessInput := do
  let v1 ← generateBoundingVolume .Sphere 0 0 0 radius 1 procId
  let v2 ← generateBoundingVolume .Sphere distanceBetweenSphereCenters 0 0 radius 2 procId
  pure ⟨[v1], [v2]⟩

/-- `runTwoSpheresTest(searchMethod, distanceBetweenSphereCenters, radius,
boxIdPairResults)`: the value of `boxIdPairResults` on process `procId` of a
group of `numProcs` processes. -/
def runTwoSpheresTest (searchMethod : SearchMethod) (distanceBetweenSphereCenters radius : ℚ)
    (numProcs procId : Nat) : Except SearchError (List IdentPair) := do
  let comm ← (List.range numProcs).mapM (twoSpheresInput distanceBetweenSphereCenters radius)
  pure (coarse_search searchMethod comm procId)

/-- `radiusOfOneHalf`. -/
def radiusOfOneHalf : ℚ := 1 / 2

/-- The eight grid positions of `runBoxOverlappingEightSurroundingBoxes`, each
with its id: `(x, y, id)`, the centre `(1, 1)` (id 5) left out. -/
def gridPositions : List (ℚ × ℚ × Int) :=
  [(0, 0, 1), (1, 0, 2), (2, 0, 3), (0, 1, 4), (2, 1, 6), (0, 2, 7), (1, 2, 8), (2, 2, 9)]

/-- The eight outer volumes of the grid scenario, as process `proc` tags them. -/
def eightVolumes (outer : VolumeKind) (radius : ℚ) (h : 0 ≤ radius) (proc : Nat) :
    List TaggedVolume :=
  gridPositions.map fun g => (makeVolume outer g.1 g.2.1 0 radius h, ⟨g.2.2, proc⟩)

/-- The local collections of `runBoxOverlappingEightSurroundingBoxes<Inner, Outer>`
on process `procId`: the eight outer volumes on process `0`, the inner volume on
process `numProc - 1`. -/
def eightSurroundingInput (inner outer : VolumeKind) (radius : ℚ) (numProc procId : Nat) :
    Except SearchError ProcessInput := do
  let boxVector1 ←
    if procId = 0 then do
      let b1 ← generateBoundingVolume outer 0 0 0 radius 1 procId
      let b2 ← generateBoundingVolume outer 1 0 0 radius 2 procId
      let b3 ← generateBoundingVolume outer 2 0 0 radius 3 procId
      let b4 ← generateBoundingVolume outer 0 1 0 radius 4 procId
      let b6 ← generateBoundingVolume outer 2 1 0 radius 6 procId
      let b7 ← generateBoundingVolume outer 0 2 0 radius 7 procId
      let b8 ← generateBoundingVolume outer 1 2 0 radius 8 procId
      let b9 ← generateBoundingVolume outer 2 2 0 radius 9 procId
      pure [b1, b2, b3, b4, b6, b7, b8, b9]
    else pure []
  let boxVector2 ←
    if procId = numProc - 1 then do
      let b5 ← generateBoundingVolume inner 1 1 0 radius 5 procId
      pure [b5]
    else pure []
  pure ⟨boxVector1, boxVector2⟩

/-- `runBoxOverlappingEightSurroundingBoxes<Inner, Outer>(searchMethod, radius,
numExpectedResults)`: the value of `boxIdPairResults` on process `procId` of a
group of `numProc` processes; the test compares its size with
`numExpectedResults` on the processes that hold a volume. -/
def runBoxOverlappingEightSurroundingBoxes (inner outer : VolumeKind)
    (searchMethod : SearchMethod) (radius : ℚ) (numProc procId : Nat) :
    Except SearchError (List IdentPair) := do
  let comm ← (List.range numProc).mapM (eightSurroundingInput inner outer radius numProc)
  pure (coarse_search searchMethod comm procId)

/-- The `enum Axis` of the line test. -/
inductive Axis where
  | xDim
  | yDim
  | zDim
  deriving DecidableEq, Repr

/-- The shape of the volume of process `procId` in the line test: radius (or
half-width) `0.708`, centre at `procId * 1.0` on the chosen axis. -/
def lineShape (kind : VolumeKind) (axis : Axis) (procId : Nat) : BoundingVolume :=
  match axis with
  | .xDim => makeVolume kind ((procId : ℚ) * 1) 0 0 (708 / 1000) (by norm_num)
  | .yDim => makeVolume kind 0 ((procId : ℚ) * 1) 0 (708 / 1000) (by norm_num)
  | .zDim => makeVolume kind 0 0 ((procId : ℚ) * 1) (708 / 1000) (by norm_num)

/-- The volume of process `procId` in `runLineOfBoundingBoxes`: radius `0.708`,
centre at `procId * 1.0` on the chosen axis, id `1`. -/
def lineVolume (kind : VolumeKind) (axis : Axis) (procId : Nat) :
    Except SearchError TaggedVolume :=
  let radius : ℚ := 708 / 1000
  let distanceBetweenCenters : ℚ := 1
  let paramCoord : ℚ := procId * distanceBetweenCenters
  match axis with
  | .xDim => generateBoundingVolume kind paramCoord 0 0 radius 1 procId
  | .yDim => generateBoundingVolume kind 0 paramCoord 0 radius 1 procId
  | .zDim => generateBoundingVolume kind 0 0 paramCoord radius 1 procId

/-- The local collections of `runLineOfBoundingBoxes` on process `procId`: its
one volume is in `boxVector1` on an even rank and in `boxVector2` on an odd one. -/
def lineInput (kind : VolumeKind) (axis : Axis) (procId : Nat) :
    Except SearchError ProcessInput := do
  let v ← lineVolume kind axis procId
  if procId % 2 = 0 then pure ⟨[v], []⟩ else pure ⟨[], [v]⟩

/-- `runLineOfBoundingBoxes<T>(searchMethod, axis)`: the value of
`boxIdPairResults` on process `procId` of a group of `numProcs` processes. -/
def runLineOfBoundingBoxes (kind : VolumeKind) (searchMethod : SearchMethod) (axis : Axis)
    (numProcs procId : Nat) : Except SearchError (List IdentPair) := do
  let comm ← (List.range numProcs).mapM (lineInput kind axis)
  pure (coarse_search searchMethod comm procId)

/-- The ranks next to `procId` in a line of `numProcs` processes. -/
def lineNeighbours (numProcs procId : Nat) : List Nat :=
  (if 0 < procId then [procId - 1] else []) ++ (if procId + 1 < numProcs then [procId + 1] else [])

/-- The pairs of process `procId` with its neighbours in the line: its own
identifier comes first on an even rank (collection A), second on an odd one. -/
def linePairs (numProcs procId : Nat) : List IdentPair :=
  (lineNeighbours numProcs procId).map fun q =>
    if procId % 2 = 0 then (⟨1, procId⟩, ⟨1, q⟩) else (⟨1, q⟩, ⟨1, procId⟩)

/-- The line of two spheres, as `runLineOfBoundingBoxes<Sphere>` builds it along
`x` on two processes: the sphere at 0 in collection A of rank 0, the sphere at 1
in collection B of rank 1. -/
def twoProcessLine : List ProcessInput :=
  [⟨[(lineShape .Sphere .xDim 0, ⟨1, 0⟩)], []⟩, ⟨[], [(lineShape .Sphere .xDim 1, ⟨1, 1⟩)]⟩]

/-- The value `numExpectedResults` that `runLineOfBoundingBoxes` asserts on
process `procId` of `numProcs` processes. -/
def lineExpectedResults (numProcs procId : Nat) : Nat :=
  if numProcs = 1 then 0
  else if procId = 0 ∨ procId = numProcs - 1 then 1
  else 2

end stk_search

namespace krino

/-! ## Bounding-box extraction and serialization of `Akri_Facet.cpp` -/

/-- Modelled from the spec: `BoundingBox::accommodate(pt)` of
`Akri_BoundingBox.hpp`, which is not among the sources: the box is expanded,
component by component, to the minimum and maximum of its corners and the
point. -/
def BoundingBox.accommodate (bbox : BoundingBox) (pt : Vector3d) : BoundingBox :=
  { get_min := ⟨min bbox.get_min.c0 pt.c0, min bbox.get_min.c1 pt.c1, min bbox.get_min.c2 pt.c2⟩
    get_max := ⟨max bbox.get_max.c0 pt.c0, max bbox.get_max.c1 pt.c1, max bbox.get_max.c2 pt.c2⟩ }

/-- Modelled from the spec: the empty box of `Akri_BoundingBox.hpp`, its minimum
corner at the largest value of the scalar type and its maximum corner at the
negative of it; `limit` stands for `std::numeric_limits<double>::max()`. -/
def BoundingBox.emptyBox (limit : ℚ) : BoundingBox :=
  { get_min := ⟨limit, limit, limit⟩
    get_max := ⟨-limit, -limit, -limit⟩ }

/-- `Facet3d::insert_into(bbox)`: the box after the three `accommodate` calls. -/
def Facet3d.insert_into (f : Facet3d) (bbox : BoundingBox) : BoundingBox :=
  ((bbox.accommodate f.v0).accommodate f.v1).accommodate f.v2

/-- `Facet2d::insert_into(bbox)`: the box after the two `accommodate` calls. -/
def Facet2d.insert_into (f : Facet2d) (bbox : BoundingBox) : BoundingBox :=
  (bbox.accommodate f.v0).accommodate f.v1

/-- Modelled from the spec: `stk::CommBuffer` of
`stk_util/parallel/ParallelComm.hpp`, which is not among the sources, as a
first-in first-out sequence of doubles. -/
abbrev CommBuffer := List ℚ

/-- Modelled from the spec: `b.pack(value)` appends one double. -/
def CommBuffer.pack (b : CommBuffer) (value : ℚ) : CommBuffer :=
  b ++ [value]

/-- Modelled from the spec: `b.unpack(value)` takes the oldest double; there is
none to take from an exhausted buffer. -/
def CommBuffer.unpack (b : CommBuffer) : Option (ℚ × CommBuffer) :=
  match b with
  | [] => none
  | value :: rest => some (value, rest)

/-- `unpack_vector3d_from_buffer(b, coords)`: the buffer and `coords` after the
three reads. -/
def unpack_vector3d_from_buffer (b : CommBuffer) (coords : Vector3d) :
    Option (CommBuffer × Vector3d) := do
  let (value0, b) ← b.unpack
  let coords := { coords with c0 := value0 }
  let (value1, b) ← b.unpack
  let coords := { coords with c1 := value1 }
  let (value2, b) ← b.unpack
  let coords := { coords with c2 := value2 }
  pure (b, coords)

/-- `unpack_vector2d_from_buffer(b, coords)`: two reads, then `coords[2] = 0.`. -/
def unpack_vector2d_from_buffer (b : CommBuffer) (coords : Vector3d) :
    Option (CommBuffer × Vector3d) := do
  let (value0, b) ← b.unpack
  let coords := { coords with c0 := value0 }
  let (value1, b) ← b.unpack
  let coords := { coords with c1 := value1 }
  let coords := { coords with c2 := 0 }
  pure (b, coords)

/-- The body of the loop of `Facet2d::pack_into_buffer` over the vertices
`myCoords[n]`. -/
def pack2d_loop (b : CommBuffer) : List Vector3d → CommBuffer
  | [] => b
  | v :: rest => pack2d_loop ((b.pack v.c0).pack v.c1) rest

/-- `Facet2d::pack_into_buffer(b)`. -/
def Facet2d.pack_into_buffer (f : Facet2d) (b : CommBuffer) : CommBuffer :=
  pack2d_loop b [f.v0, f.v1]

/-- `Facet2d::unpack_facet_data_from_buffer(b, facetCoords)`. -/
def Facet2d.unpack_facet_data_from_buffer (b : CommBuffer) (facetCoords : Vector3d × Vector3d) :
    Option (CommBuffer × (Vector3d × Vector3d)) := do
  let (b, coords0) ← unpack_vector2d_from_buffer b facetCoords.1
  let (b, coords1) ← unpack_vector2d_from_buffer b facetCoords.2
  pure (b, (coords0, coords1))

/-- The body of the loop of `Facet3d::pack_into_buffer` over the vertices
`myCoords[n]`. -/
def pack3d_loop (b : CommBuffer) : List Vector3d → CommBuffer
  | [] => b
  | v :: rest => pack3d_loop (((b.pack v.c0).pack v.c1).pack v.c2) rest

/-- `Facet3d::pack_into_buffer(b)`. -/
def Facet3d.pack_into_buffer (f : Facet3d) (b : CommBuffer) : CommBuffer :=
  pack3d_loop b [f.v0, f.v1, f.v2]

/-- `Facet3d::unpack_facet_data_from_buffer(b, facetCoords)`. -/
def Facet3d.unpack_facet_data_from_buffer (b : CommBuffer)
    (facetCoords : Vector3d × Vector3d × Vector3d) :
    Option (CommBuffer × (Vector3d × Vector3d × Vector3d)) := do
  let (b, coords0) ← unpack_vector3d_from_buffer b facetCoords.1
  let (b, coords1) ← unpack_vector3d_from_buffer b facetCoords.2.1
  let (b, coords2) ← unpack_vector3d_from_buffer b facetCoords.2.2
  pure (b, (coords0, coords1, coords2))

end krino

namespace Tempus

/-! ## `Tempus_StepperOperatorSplitModifierXBase.hpp` -/

/-- `StepperOperatorSplitAppAction<Scalar>::ACTION_LOCATION`, declared in
`Tempus_StepperOperatorSplitAppAction.hpp`: the four locations the source
names, and any other value of the enumeration type, which reaches the
`default` label. -/
inductive ACTION_LOCATION where
  | BEGIN_STEP
  | BEFORE_STEPPER
  | AFTER_STEPPER
  | END_STEP
  | other (value : Int)
  deriving DecidableEq, Repr

/-- `StepperOperatorSplitModifierXBase<Scalar>::MODIFIER_TYPE`. -/
inductive MODIFIER_TYPE where
  | X_BEGIN_STEP
  | X_BEFORE_STEPPER
  | X_AFTER_STEPPER
  | XDOT_END_STEP
  deriving DecidableEq, Repr

/-- What `execute` reads of a `SolutionState<Scalar>`: time, time step and the
pointers `getX()` and `getXDot()`; a null `Teuchos::RCP` is `none`. -/
structure SolutionState (Scalar Vec : Type) where
  getTime : Scalar
  getTimeStep : Scalar
  getX : Option Vec
  getXDot : Option Vec

/-- What `execute` reads of a `SolutionHistory<Scalar>`: its working state. -/
structure SolutionHistory (Scalar Vec : Type) where
  getWorkingState : SolutionState Scalar Vec

/-- What `execute` reads of a `StepperOperatorSplit<Scalar>`: `getStepperXDot()`. -/
structure StepperOperatorSplit (Vec : Type) where
  getStepperXDot : Option Vec

/-- The exception of `TEUCHOS_TEST_FOR_EXCEPTION(true, std::logic_error, ...)`. -/
inductive Exception where
  | logic_error (what : String)
  deriving DecidableEq, Repr

/-- `StepperOperatorSplitModifierXBase<Scalar>::execute(sh, stepper, actLoc)`.
The pure virtual `modify(x, time, dt, modType)` is a parameter that acts on the
state `World` of the program.  `execute` returns how it ended, normally or with
the exception it throws, and the state of the program it leaves: the `switch`
selects the modifier type and the vector, or throws at the `default` label with
the state as it was; the call of `modify` comes after the `switch`. -/
def execute {Scalar Vec World : Type}
    (modify : Option Vec → Scalar → Scalar → MODIFIER_TYPE → World → World)
    (sh : SolutionHistory Scalar Vec) (stepper : StepperOperatorSplit Vec)
    (actLoc : ACTION_LOCATION) (world : World) : Except Exception Unit × World :=
  let workingState := sh.getWorkingState
  let time := workingState.getTime
  let dt := workingState.getTimeStep
  let selected : Except Exception (MODIFIER_TYPE × Option Vec) :=
    match actLoc with
    | .BEGIN_STEP => .ok (.X_BEGIN_STEP, workingState.getX)
    | .BEFORE_STEPPER => .ok (.X_BEFORE_STEPPER, workingState.getX)
    | .AFTER_STEPPER => .ok (.X_AFTER_STEPPER, workingState.getX)
    | .END_STEP =>
      if workingState.getXDot.isSome then .ok (.XDOT_END_STEP, workingState.getXDot)
      else .ok (.XDOT_END_STEP, stepper.getStepperXDot)
    | .other _ => .error (.logic_error ("Error - unknown action location.\n"))
  match selected with
  | .error thrown => (.error thrown, world)
  | .ok (modType, x) => (.ok (), modify x time dt modType world)

/-- One recorded call `modify(x, time, dt, modType)`. -/
structure ModifyCall (Scalar Vec : Type) where
  x : Option Vec
  time : Scalar
  dt : Scalar
  modType : MODIFIER_TYPE

/-- A `modify` that does nothing but record its call. -/
def recordModify {Scalar Vec : Type} (x : Option Vec) (time dt : Scalar)
    (modType : MODIFIER_TYPE) (calls : List (ModifyCall Scalar Vec)) :
    List (ModifyCall Scalar Vec) :=
  calls ++ [⟨x, time, dt, modType⟩]

end Tempus

namespace aprepro

/-! ## `aprepro.C`: `main` after the options are parsed -/

/-- `EXIT_SUCCESS`. -/
def EXIT_SUCCESS : Int := 0

/-- `EXIT_FAILURE`. -/
def EXIT_FAILURE : Int := 1

/-- The fields of `aprepro.ap_options` that decide what `main` writes and
returns. -/
structure ApOptions where
  errors_fatal : Bool
  errors_and_warnings_fatal : Bool
  deriving DecidableEq, Repr

/-- What the call `aprepro.parse_stream(...)` did: it returned `result` and left
the counts that `get_error_count()` and `get_warning_count()` report, or it
threw. -/
inductive ParseOutcome where
  | returned (result : Bool) (error_count warning_count : Int)
  | threw (what : String)
  deriving DecidableEq, Repr

/-- Where `aprepro.parsing_results()` is written. -/
inductive Destination where
  | standardOutput
  | secondFile
  deriving DecidableEq, Repr

/-- The lines `main` writes to `std::cerr`. -/
inductive Diagnostic where
  | couldNotOpenFile
  | thereWereErrorsAndWarnings (error_count warning_count : Int)
  | errorsAndWarningsAreFatal
  | errorsAreFatal
  | neitherErrorsNorWarningsAreFatal
  | terminatedDueToException (what : String)
  deriving DecidableEq, Repr

/-- What a run of `main` leaves: its return value, where the parsing results
were written (if they were), whether the version banner went with them, and the
lines on `std::cerr`. -/
structure Run where
  exit_status : Int
  written : Option Destination
  banner : Bool
  diagnostics : List Diagnostic
  deriving DecidableEq, Repr

/-- The value of a C++ `int` expression whose exact value is `n`, as the compiled
program evaluates it: 32 bits, two's complement, a sum beyond the range wraps
around. -/
def intValue (n : Int) : Int :=
  (n + 2147483648) % 4294967296 - 2147483648

/-- The local `writeResults` of `main` after its two tests.  The counts are the
`int` values of `get_error_count()` and `get_warning_count()`, and their sum is an
`int` sum. -/
def writeResults (options : ApOptions) (error_count warning_count : Int) : Bool :=
  let writeResults := true
  let writeResults :=
    if options.errors_fatal ∧ error_count > 0 then false else writeResults
  let writeResults :=
    if options.errors_and_warnings_fatal ∧ intValue (error_count + warning_count) > 0 then false
    else writeResults
  writeResults

/-- The lines written to `std::cerr` when `writeResults` is false. -/
def fatalDiagnostics (options : ApOptions) (error_count warning_count : Int) :
    List Diagnostic :=
  [.thereWereErrorsAndWarnings error_count warning_count,
    if options.errors_and_warnings_fatal then .errorsAndWarningsAreFatal
    else if options.errors_fatal then .errorsAreFatal
    else .neitherErrorsNorWarningsAreFatal]

/-- The `else` branch of `main`, taken when `input_files` is not empty (file
mode).  `exit_status` is the value the option loop left, `num_input_files` is
`input_files.size()`, `infile_good` tells whether the input file could be
opened (directly or under the include path). -/
def fileMode (exit_status : Int) (num_input_files : Nat) (quiet : Bool) (options : ApOptions)
    (infile_good : Bool) (parse : ParseOutcome) : Run :=
  if ¬ infile_good then
    { exit_status := EXIT_FAILURE, written := none, banner := false,
      diagnostics := [.couldNotOpenFile] }
  else
    match parse with
    | .threw what =>
      { exit_status := EXIT_FAILURE, written := none, banner := false,
        diagnostics := [.terminatedDueToException what] }
    | .returned result error_count warning_count =>
      if writeResults options error_count warning_count then
        if result then
          if num_input_files > 1 then
            { exit_status := exit_status, written := some .secondFile, banner := !quiet,
              diagnostics := [] }
          else
            { exit_status := exit_status, written := some .standardOutput, banner := !quiet,
              diagnostics := [] }
        else
          { exit_status := exit_status, written := none, banner := false, diagnostics := [] }
      else
        { exit_status := EXIT_FAILURE, written := none, banner := false,
          diagnostics := fatalDiagnostics options error_count warning_count }

end aprepro

/-! # Theorems -/

namespace krino

theorem are_all_components_lo_eq_true (bboxMin : Nat → ℚ) (points : List (Nat → ℚ)) (comp : Nat) :
    are_all_components_lo bboxMin points comp = true ↔ ∀ p ∈ points, p comp < bboxMin comp := by
  induction points with
  | nil => simp [are_all_components_lo]
  | cons p rest ih =>
    by_cases h : p comp ≥ bboxMin comp
    · simp only [are_all_components_lo, h, if_true, List.mem_cons, forall_eq_or_imp]
      constructor
      · intro hf; cases hf
      · intro hp; exact absurd hp.1 (not_lt.mpr h)
    · simp only [are_all_components_lo, h, if_false, List.mem_cons, forall_eq_or_imp, ih]
      exact ⟨fun hr => ⟨not_le.mp h, hr⟩, fun hr => hr.2⟩

theorem are_all_components_hi_eq_true (bboxMax : Nat → ℚ) (points : List (Nat → ℚ)) (comp : Nat) :
    are_all_components_hi bboxMax points comp = true ↔ ∀ p ∈ points, bboxMax comp < p comp := by
  induction points with
  | nil => simp [are_all_components_hi]
  | cons p rest ih =>
    by_cases h : p comp ≤ bboxMax comp
    · simp only [are_all_components_hi, h, if_true, List.mem_cons, forall_eq_or_imp]
      constructor
      · intro hf; cases hf
      · intro hp; exact absurd hp.1 (not_lt.mpr h)
    · simp only [are_all_components_hi, h, if_false, List.mem_cons, forall_eq_or_imp, ih]
      exact ⟨fun hr => ⟨not_le.mp h, hr⟩, fun hr => hr.2⟩

theorem does_bounding_box_intersect_facet_loop_eq_true (bbox : BoundingBox)
    (points : List (Nat → ℚ)) (comps : List Nat) :
    does_bounding_box_intersect_facet_loop bbox points comps = true ↔
      ∀ d ∈ comps, (∃ p ∈ points, bbox.get_min.data d ≤ p d) ∧
        (∃ p ∈ points, p d ≤ bbox.get_max.data d) := by
  induction comps with
  | nil => simp [does_bounding_box_intersect_facet_loop]
  | cons c rest ih =>
    have hlo := are_all_components_lo_eq_true bbox.get_min.data points c
    have hhi := are_all_components_hi_eq_true bbox.get_max.data points c
    simp only [does_bounding_box_intersect_facet_loop, List.mem_cons, forall_eq_or_imp]
    by_cases h1 : are_all_components_lo bbox.get_min.data points c = true
    · simp only [h1, Bool.true_or, if_true]
      constructor
      · intro hf; cases hf
      · rintro ⟨⟨⟨p, hp, hle⟩, _⟩, _⟩
        exact absurd (hlo.mp h1 p hp) (not_lt.mpr hle)
    · by_cases h2 : are_all_components_hi bbox.get_max.data points c = true
      · simp only [h2, Bool.or_true, if_true]
        constructor
        · intro hf; cases hf
        · rintro ⟨⟨_, ⟨p, hp, hle⟩⟩, _⟩
          exact absurd (hhi.mp h2 p hp) (not_lt.mpr hle)
      · have e1 : are_all_components_lo bbox.get_min.data points c = false := by
          simpa using h1
        have e2 : are_all_components_hi bbox.get_max.data points c = false := by
          simpa using h2
        simp only [e1, e2, Bool.or_self, Bool.false_eq_true, if_false, ih]
        have n1 : ∃ p ∈ points, bbox.get_min.data c ≤ p c := by
          by_contra hcon
          push_neg at hcon
          exact h1 (hlo.mpr hcon)
        have n2 : ∃ p ∈ points, p c ≤ bbox.get_max.data c := by
          by_contra hcon
          push_neg at hcon
          exact h2 (hhi.mpr hcon)
        exact ⟨fun hr => ⟨⟨n1, n2⟩, hr⟩, fun hr => hr.2⟩

/-- The three-vertex call of the primitive is the closed-interval overlap test
against the vertices, one dimension at a time. -/
theorem intersect_three_iff (bbox : BoundingBox) (p0 p1 p2 : Nat → ℚ) (ndim : Nat) :
    does_bounding_box_intersect_facet bbox [p0, p1, p2] ndim = true ↔
      ∀ d, d < ndim → min (min (p0 d) (p1 d)) (p2 d) ≤ bbox.get_max.data d ∧
        bbox.get_min.data d ≤ max (max (p0 d) (p1 d)) (p2 d) := by
  unfold does_bounding_box_intersect_facet
  rw [does_bounding_box_intersect_facet_loop_eq_true]
  simp only [List.mem_range, List.mem_cons, List.mem_singleton, List.not_mem_nil, or_false,
    exists_eq_or_imp, exists_eq_left, min_le_iff, le_max_iff]
  constructor
  · intro h d hd
    obtain ⟨h1, h2⟩ := h d hd
    exact ⟨by tauto, by tauto⟩
  · intro h d hd
    obtain ⟨h1, h2⟩ := h d hd
    exact ⟨by tauto, by tauto⟩

/-- The two-vertex call of the primitive. -/
theorem intersect_two_iff (bbox : BoundingBox) (p0 p1 : Nat → ℚ) (ndim : Nat) :
    does_bounding_box_intersect_facet bbox [p0, p1] ndim = true ↔
      ∀ d, d < ndim → min (p0 d) (p1 d) ≤ bbox.get_max.data d ∧
        bbox.get_min.data d ≤ max (p0 d) (p1 d) := by
  unfold does_bounding_box_intersect_facet
  rw [does_bounding_box_intersect_facet_loop_eq_true]
  simp only [List.mem_range, List.mem_cons, List.mem_singleton, List.not_mem_nil, or_false,
    exists_eq_or_imp, exists_eq_left, min_le_iff, le_max_iff]
  constructor
  · intro h d hd
    obtain ⟨h1, h2⟩ := h d hd
    exact ⟨by tauto, by tauto⟩
  · intro h d hd
    obtain ⟨h1, h2⟩ := h d hd
    exact ⟨by tauto, by tauto⟩

/-- C1: for every box and every facet (three vertices with `ndim = 3`, two
vertices with `ndim = 2`, given as raw coordinate pointers or as the vertices of
a facet), `does_bounding_box_intersect_facet`, and hence
`Facet3d::does_intersect` and `Facet2d::does_intersect`, returns `true` exactly
when in every dimension `d < ndim` the least vertex component is at most
`bbox.max[d]` and `bbox.min[d]` is at most the greatest vertex component: the
closed-interval overlap test between `bbox` and the enclosing box of the facet.
Components `d >= ndim` are not read: the two-vertex result is unchanged when
the third component of the box corners and of the vertices is replaced. -/
theorem does_intersect_iff_enclosing_box_overlap (bbox : BoundingBox) (f3 : Facet3d)
    (f2 : Facet2d) (p0 p1 p2 : Nat → ℚ) :
    (does_bounding_box_intersect_facet bbox [p0, p1, p2] 3 = true ↔
      ∀ d, d < 3 →
        min (min (p0 d) (p1 d)) (p2 d) ≤ bbox.get_max.data d ∧
        bbox.get_min.data d ≤ max (max (p0 d) (p1 d)) (p2 d)) ∧
    (does_bounding_box_intersect_facet bbox [p0, p1] 2 = true ↔
      ∀ d, d < 2 →
        min (p0 d) (p1 d) ≤ bbox.get_max.data d ∧
        bbox.get_min.data d ≤ max (p0 d) (p1 d)) ∧
    (f3.does_intersect bbox = true ↔
      ∀ d, d < 3 →
        min (min (f3.v0.data d) (f3.v1.data d)) (f3.v2.data d) ≤ bbox.get_max.data d ∧
        bbox.get_min.data d ≤ max (max (f3.v0.data d) (f3.v1.data d)) (f3.v2.data d)) ∧
    (f2.does_intersect bbox = true ↔
      ∀ d, d < 2 →
        min (f2.v0.data d) (f2.v1.data d) ≤ bbox.get_max.data d ∧
        bbox.get_min.data d ≤ max (f2.v0.data d) (f2.v1.data d)) ∧
    (∀ z0 z1 zmin zmax : ℚ,
      Facet2d.does_intersect ⟨⟨f2.v0.c0, f2.v0.c1, z0⟩, ⟨f2.v1.c0, f2.v1.c1, z1⟩⟩
          ⟨⟨bbox.get_min.c0, bbox.get_min.c1, zmin⟩, ⟨bbox.get_max.c0, bbox.get_max.c1, zmax⟩⟩
        = f2.does_intersect bbox) := by
  refine ⟨intersect_three_iff bbox p0 p1 p2 3, intersect_two_iff bbox p0 p1 2,
    intersect_three_iff bbox _ _ _ 3, intersect_two_iff bbox _ _ 2, ?_⟩
  intro z0 z1 zmin zmax
  rw [Bool.eq_iff_iff]
  unfold Facet2d.does_intersect
  rw [intersect_two_iff, intersect_two_iff]
  constructor
  · intro h d hd
    have := h d hd
    interval_cases d <;> simpa [Vector3d.data] using this
  · intro h d hd
    have := h d hd
    interval_cases d <;> simpa [Vector3d.data] using this

/-- C10: the facet/box test never rejects a facet that touches the box.  If a
convex combination of the vertices (weights non-negative, summing to one) lies
in the closed box in the first `ndim` coordinates, `does_intersect` returns
`true`, for `Facet3d` (three weights, `ndim = 3`) and for `Facet2d` (two
weights, `ndim = 2`). -/
theorem does_intersect_of_convex_combination_in_box (bbox : BoundingBox) (f3 : Facet3d)
    (f2 : Facet2d) :
    (∀ a b c : ℚ, 0 ≤ a → 0 ≤ b → 0 ≤ c → a + b + c = 1 →
      (∀ d, d < 3 →
        bbox.get_min.data d ≤ a * f3.v0.data d + b * f3.v1.data d + c * f3.v2.data d ∧
        a * f3.v0.data d + b * f3.v1.data d + c * f3.v2.data d ≤ bbox.get_max.data d) →
      f3.does_intersect bbox = true) ∧
    (∀ a b : ℚ, 0 ≤ a → 0 ≤ b → a + b = 1 →
      (∀ d, d < 2 →
        bbox.get_min.data d ≤ a * f2.v0.data d + b * f2.v1.data d ∧
        a * f2.v0.data d + b * f2.v1.data d ≤ bbox.get_max.data d) →
      f2.does_intersect bbox = true) := by
  constructor
  · intro a b c ha hb hc hsum hin
    unfold Facet3d.does_intersect
    rw [intersect_three_iff]
    intro d hd
    obtain ⟨hlo, hhi⟩ := hin d hd
    set x := f3.v0.data d
    set y := f3.v1.data d
    set z := f3.v2.data d
    have hm0 : min (min x y) z ≤ x := le_trans (min_le_left _ _) (min_le_left _ _)
    have hm1 : min (min x y) z ≤ y := le_trans (min_le_left _ _) (min_le_right _ _)
    have hm2 : min (min x y) z ≤ z := min_le_right _ _
    have hM0 : x ≤ max (max x y) z := le_trans (le_max_left _ _) (le_max_left _ _)
    have hM1 : y ≤ max (max x y) z := le_trans (le_max_right _ _) (le_max_left _ _)
    have hM2 : z ≤ max (max x y) z := le_max_right _ _
    constructor
    · have h0 := mul_le_mul_of_nonneg_left hm0 ha
      have h1 := mul_le_mul_of_nonneg_left hm1 hb
      have h2 := mul_le_mul_of_nonneg_left hm2 hc
      have e : min (min x y) z = a * min (min x y) z + b * min (min x y) z
          + c * min (min x y) z := by
        rw [← add_mul, ← add_mul, hsum, one_mul]
      linarith
    · have h0 := mul_le_mul_of_nonneg_left hM0 ha
      have h1 := mul_le_mul_of_nonneg_left hM1 hb
      have h2 := mul_le_mul_of_nonneg_left hM2 hc
      have e : max (max x y) z = a * max (max x y) z + b * max (max x y) z
          + c * max (max x y) z := by
        rw [← add_mul, ← add_mul, hsum, one_mul]
      linarith
  · intro a b ha hb hsum hin
    unfold Facet2d.does_intersect
    rw [intersect_two_iff]
    intro d hd
    obtain ⟨hlo, hhi⟩ := hin d hd
    set x := f2.v0.data d
    set y := f2.v1.data d
    constructor
    · have h0 := mul_le_mul_of_nonneg_left (min_le_left x y) ha
      have h1 := mul_le_mul_of_nonneg_left (min_le_right x y) hb
      have e : min x y = a * min x y + b * min x y := by
        rw [← add_mul, hsum, one_mul]
      linarith
    · have h0 := mul_le_mul_of_nonneg_left (le_max_left x y) ha
      have h1 := mul_le_mul_of_nonneg_left (le_max_right x y) hb
      have e : max x y = a * max x y + b * max x y := by
        rw [← add_mul, hsum, one_mul]
      linarith

/-- Witness for C10: the midpoint of the first edge of a triangle, and the
midpoint of a segment, lie in the unit box, and the facets are accepted. -/
theorem does_intersect_of_convex_combination_in_box_witness :
    Facet3d.does_intersect ⟨⟨-1, 0, 0⟩, ⟨1, 0, 0⟩, ⟨5, 5, 5⟩⟩ ⟨⟨0, 0, 0⟩, ⟨1, 1, 1⟩⟩ = true ∧
    Facet2d.does_intersect ⟨⟨-1, 2, 0⟩, ⟨1, -2, 0⟩⟩ ⟨⟨0, 0, 0⟩, ⟨1, 1, 1⟩⟩ = true := by
  have h := does_intersect_of_convex_combination_in_box ⟨⟨0, 0, 0⟩, ⟨1, 1, 1⟩⟩
    ⟨⟨-1, 0, 0⟩, ⟨1, 0, 0⟩, ⟨5, 5, 5⟩⟩ ⟨⟨-1, 2, 0⟩, ⟨1, -2, 0⟩⟩
  refine ⟨h.1 (1/2) (1/2) 0 (by norm_num) (by norm_num) (by norm_num) (by norm_num) ?_,
    h.2 (1/2) (1/2) (by norm_num) (by norm_num) (by norm_num) ?_⟩
  · intro d hd
    interval_cases d <;> norm_num [Vector3d.data]
  · intro d hd
    interval_cases d <;> norm_num [Vector3d.data]

end krino

namespace stk_search

/-! ## Bounding volume predicates -/

theorem StkBox.overlaps_iff (a b : StkBox) :
    a.overlaps b = true ↔
      (a.min_corner.x ≤ b.max_corner.x ∧ b.min_corner.x ≤ a.max_corner.x) ∧
      (a.min_corner.y ≤ b.max_corner.y ∧ b.min_corner.y ≤ a.max_corner.y) ∧
      (a.min_corner.z ≤ b.max_corner.z ∧ b.min_corner.z ≤ a.max_corner.z) := by
  simp only [StkBox.overlaps, StkBox.overlapsFrom, Point.coord]
  by_cases hx : a.min_corner.x ≤ b.max_corner.x ∧ b.min_corner.x ≤ a.max_corner.x
  · by_cases hy : a.min_corner.y ≤ b.max_corner.y ∧ b.min_corner.y ≤ a.max_corner.y
    · by_cases hz : a.min_corner.z ≤ b.max_corner.z ∧ b.min_corner.z ≤ a.max_corner.z
      · simp [hx, hy, hz]
      · simp [hx, hy, hz]
    · simp [hx, hy]
  · simp [hx]

theorem StkBox.overlaps_comm (a b : StkBox) : a.overlaps b = b.overlaps a := by
  rw [Bool.eq_iff_iff, StkBox.overlaps_iff, StkBox.overlaps_iff]
  tauto

theorem StkBox.covers_refl (b : StkBox) : b.covers b :=
  ⟨⟨le_refl _, le_refl _⟩, ⟨le_refl _, le_refl _⟩, ⟨le_refl _, le_refl _⟩⟩

theorem StkBox.covers_union_left (a b : StkBox) : (a.union b).covers a :=
  ⟨⟨min_le_left _ _, le_max_left _ _⟩, ⟨min_le_left _ _, le_max_left _ _⟩,
    ⟨min_le_left _ _, le_max_left _ _⟩⟩

theorem StkBox.covers_union_right (a b : StkBox) : (a.union b).covers b :=
  ⟨⟨min_le_right _ _, le_max_right _ _⟩, ⟨min_le_right _ _, le_max_right _ _⟩,
    ⟨min_le_right _ _, le_max_right _ _⟩⟩

theorem StkBox.covers_trans {a b c : StkBox} (h1 : a.covers b) (h2 : b.covers c) :
    a.covers c := by
  unfold StkBox.covers at *
  obtain ⟨⟨a1, a2⟩, ⟨a3, a4⟩, ⟨a5, a6⟩⟩ := h1
  obtain ⟨⟨b1, b2⟩, ⟨b3, b4⟩, ⟨b5, b6⟩⟩ := h2
  exact ⟨⟨le_trans a1 b1, le_trans b2 a2⟩, ⟨le_trans a3 b3, le_trans b4 a4⟩,
    ⟨le_trans a5 b5, le_trans b6 a6⟩⟩

/-- Overlap is monotone: a box that holds an overlapping box overlaps too. -/
theorem StkBox.overlaps_of_covers {u b q : StkBox} (hc : u.covers b)
    (ho : b.overlaps q = true) : u.overlaps q = true := by
  rw [StkBox.overlaps_iff] at *
  unfold StkBox.covers at hc
  obtain ⟨⟨a1, a2⟩, ⟨a3, a4⟩, ⟨a5, a6⟩⟩ := hc
  obtain ⟨⟨b1, b2⟩, ⟨b3, b4⟩, ⟨b5, b6⟩⟩ := ho
  exact ⟨⟨le_trans a1 b1, le_trans b2 a2⟩, ⟨le_trans a3 b3, le_trans b4 a4⟩,
    ⟨le_trans a5 b5, le_trans b6 a6⟩⟩

theorem unionAll_covers {l : List StkBox} {b : StkBox} (hb : b ∈ l) :
    ∃ u, unionAll l = some u ∧ u.covers b := by
  induction l with
  | nil => cases hb
  | cons c rest ih =>
    rcases List.mem_cons.mp hb with h | h
    · subst h
      cases hr : unionAll rest with
      | none => exact ⟨b, by simp [unionAll, hr], StkBox.covers_refl b⟩
      | some u => exact ⟨b.union u, by simp [unionAll, hr], StkBox.covers_union_left b u⟩
    · obtain ⟨u, hu, hcov⟩ := ih h
      exact ⟨c.union u, by simp [unionAll, hu],
        StkBox.covers_trans (StkBox.covers_union_right c u) hcov⟩

theorem boundsOverlap_unionAll {l : List StkBox} {b q : StkBox} (hb : b ∈ l)
    (ho : b.overlaps q = true) : boundsOverlap (unionAll l) q = true := by
  obtain ⟨u, hu, hcov⟩ := unionAll_covers hb
  simp only [boundsOverlap, hu]
  exact StkBox.overlaps_of_covers hcov ho

theorem coord_bound_of_sq_le (dx dy dz R : ℚ) (hR : 0 ≤ R)
    (h : dx * dx + dy * dy + dz * dz ≤ R * R) : -R ≤ dx ∧ dx ≤ R := by
  have hy := mul_self_nonneg dy
  have hz := mul_self_nonneg dz
  constructor
  · by_contra hc
    push_neg at hc
    nlinarith
  · by_contra hc
    push_neg at hc
    nlinarith

/-- The enclosing boxes are a conservative over-approximation: volumes that
overlap exactly have overlapping enclosing boxes. -/
theorem enclosing_overlaps_of_overlaps {a b : BoundingVolume} (h : overlaps a b = true) :
    (enclosingBox a).overlaps (enclosingBox b) = true := by
  cases a with
  | point p =>
    cases b with
    | point q =>
      simp only [overlaps, decide_eq_true_eq, squaredDistance] at h
      have hx := coord_bound_of_sq_le (p.x - q.x) (p.y - q.y) (p.z - q.z) 0
        (le_refl 0) (by simpa using h)
      have hy := coord_bound_of_sq_le (p.y - q.y) (p.x - q.x) (p.z - q.z) 0
        (le_refl 0) (by simp only [mul_zero]; linarith)
      have hz := coord_bound_of_sq_le (p.z - q.z) (p.x - q.x) (p.y - q.y) 0
        (le_refl 0) (by simp only [mul_zero]; linarith)
      rw [StkBox.overlaps_iff]
      simp only [enclosingBox]
      refine ⟨⟨?_, ?_⟩, ⟨?_, ?_⟩, ⟨?_, ?_⟩⟩ <;> linarith [hx.1, hx.2, hy.1, hy.2, hz.1, hz.2]
    | sphere s =>
      simp only [overlaps, decide_eq_true_eq, squaredDistance] at h
      have hr := s.radius_nonneg
      have hx := coord_bound_of_sq_le (p.x - s.center.x) (p.y - s.center.y)
        (p.z - s.center.z) s.radius hr h
      have hy := coord_bound_of_sq_le (p.y - s.center.y) (p.x - s.center.x)
        (p.z - s.center.z) s.radius hr (by linarith)
      have hz := coord_bound_of_sq_le (p.z - s.center.z) (p.x - s.center.x)
        (p.y - s.center.y) s.radius hr (by linarith)
      rw [StkBox.overlaps_iff]
      simp only [enclosingBox]
      refine ⟨⟨?_, ?_⟩, ⟨?_, ?_⟩, ⟨?_, ?_⟩⟩ <;> linarith [hx.1, hx.2, hy.1, hy.2, hz.1, hz.2]
    | box c => simpa [overlaps] using h
  | sphere s =>
    cases b with
    | point q =>
      simp only [overlaps, decide_eq_true_eq, squaredDistance] at h
      have hr := s.radius_nonneg
      have hx := coord_bound_of_sq_le (s.center.x - q.x) (s.center.y - q.y)
        (s.center.z - q.z) s.radius hr h
      have hy := coord_bound_of_sq_le (s.center.y - q.y) (s.center.x - q.x)
        (s.center.z - q.z) s.radius hr (by linarith)
      have hz := coord_bound_of_sq_le (s.center.z - q.z) (s.center.x - q.x)
        (s.center.y - q.y) s.radius hr (by linarith)
      rw [StkBox.overlaps_iff]
      simp only [enclosingBox]
      refine ⟨⟨?_, ?_⟩, ⟨?_, ?_⟩, ⟨?_, ?_⟩⟩ <;> linarith [hx.1, hx.2, hy.1, hy.2, hz.1, hz.2]
    | sphere t =>
      simp only [overlaps, decide_eq_true_eq, squaredDistance] at h
      have hr : 0 ≤ s.radius + t.radius := add_nonneg s.radius_nonneg t.radius_nonneg
      have hx := coord_bound_of_sq_le (s.center.x - t.center.x) (s.center.y - t.center.y)
        (s.center.z - t.center.z) (s.radius + t.radius) hr h
      have hy := coord_bound_of_sq_le (s.center.y - t.center.y) (s.center.x - t.center.x)
        (s.center.z - t.center.z) (s.radius + t.radius) hr (by linarith)
      have hz := coord_bound_of_sq_le (s.center.z - t.center.z) (s.center.x - t.center.x)
        (s.center.y - t.center.y) (s.radius + t.radius) hr (by linarith)
      rw [StkBox.overlaps_iff]
      simp only [enclosingBox]
      refine ⟨⟨?_, ?_⟩, ⟨?_, ?_⟩, ⟨?_, ?_⟩⟩ <;> linarith [hx.1, hx.2, hy.1, hy.2, hz.1, hz.2]
    | box c => simpa [overlaps] using h
  | box c =>
    cases b <;> simpa [overlaps] using h

theorem squaredDistance_comm (p q : Point) : squaredDistance p q = squaredDistance q p := by
  unfold squaredDistance
  ring

/-- The exact predicate does not depend on the order of its operands. -/
theorem overlaps_symm (a b : BoundingVolume) : overlaps a b = overlaps b a := by
  cases a with
  | point p =>
    cases b with
    | point q => simp only [overlaps, squaredDistance_comm p q]
    | sphere s => simp only [overlaps, squaredDistance_comm p s.center]
    | box c => simp only [overlaps, StkBox.overlaps_comm]
  | sphere s =>
    cases b with
    | point q => simp only [overlaps, squaredDistance_comm s.center q]
    | sphere t =>
      simp only [overlaps, squaredDistance_comm s.center t.center, add_comm s.radius t.radius]
    | box c => simp only [overlaps, StkBox.overlaps_comm]
  | box c =>
    cases b with
    | point q => simp only [overlaps, StkBox.overlaps_comm]
    | sphere t => simp only [overlaps, StkBox.overlaps_comm]
    | box e => simp only [overlaps, enclosingBox, StkBox.overlaps_comm c e]

/-! ## Spatial index -/

theorem KdTree.bounds_buildAux (threshold depth axis : Nat) (vols : List TaggedVolume) :
    (KdTree.buildAux threshold depth axis vols).bounds =
      unionAll (vols.map fun v => enclosingBox v.1) := by
  cases depth with
  | zero => simp [KdTree.buildAux, KdTree.bounds]
  | succ d =>
    simp only [KdTree.buildAux]
    split <;> simp [KdTree.bounds]

theorem mem_guarded_iff {α : Type} {c : Bool} {l : List α} {v : α} (h : v ∈ l → c = true) :
    v ∈ (if c = true then l else []) ↔ v ∈ l := by
  cases c with
  | true => simp
  | false =>
    constructor
    · intro hv
      simp at hv
    · intro hv
      exact absurd (h hv) (by simp)

/-- The k-d tree query returns exactly the indexed volumes whose enclosing box
overlaps the query box: pruning by union boxes loses nothing. -/
theorem KdTree.mem_query_buildAux (threshold depth axis : Nat) (vols : List TaggedVolume)
    (q : StkBox) (v : TaggedVolume) :
    v ∈ (KdTree.buildAux threshold depth axis vols).query_overlapping q ↔
      v ∈ vols ∧ (enclosingBox v.1).overlaps q = true := by
  induction depth generalizing axis vols with
  | zero => simp [KdTree.buildAux, KdTree.query_overlapping, List.mem_filter]
  | succ d ih =>
    simp only [KdTree.buildAux]
    split
    · simp [KdTree.query_overlapping, List.mem_filter]
    · simp only [KdTree.query_overlapping, List.mem_append, KdTree.bounds_buildAux]
      set sorted := vols.insertionSort (fun u v => centerCoord axis u ≤ centerCoord axis v)
        with hs
      have hperm : ∀ w, w ∈ sorted ↔ w ∈ vols := fun w =>
        (List.perm_insertionSort _ vols).mem_iff
      have hsplit : ∀ w, w ∈ sorted ↔
          w ∈ sorted.take (sorted.length / 2) ∨ w ∈ sorted.drop (sorted.length / 2) := by
        intro w
        rw [← List.mem_append, List.take_append_drop]
      rw [mem_guarded_iff, mem_guarded_iff, ih, ih, ← hperm v, hsplit v]
      · tauto
      · intro hv
        rw [ih] at hv
        exact boundsOverlap_unionAll (List.mem_map_of_mem (fun w => enclosingBox w.1) hv.1) hv.2
      · intro hv
        rw [ih] at hv
        exact boundsOverlap_unionAll (List.mem_map_of_mem (fun w => enclosingBox w.1) hv.1) hv.2

theorem KdTree.mem_query_build (vols : List TaggedVolume) (q : StkBox) (v : TaggedVolume) :
    v ∈ (KdTree.build vols).query_overlapping q ↔
      v ∈ vols ∧ (enclosingBox v.1).overlaps q = true :=
  KdTree.mem_query_buildAux _ _ _ _ _ _

/-! ## Local pairwise resolver -/

/-- Both methods resolve exactly the overlapping pairs of the two collections. -/
theorem mem_resolveLocal (method : SearchMethod) (collA collB : List TaggedVolume)
    (pr : IdentPair) :
    pr ∈ resolveLocal method collA collB ↔
      ∃ a ∈ collA, ∃ b ∈ collB, overlaps a.1 b.1 = true ∧ pr = (a.2, b.2) := by
  cases method with
  | LINEAR =>
    simp only [resolveLocal, List.mem_flatMap, List.mem_map, List.mem_filter]
    constructor
    · rintro ⟨a, ha, b, ⟨hb, ho⟩, rfl⟩
      exact ⟨a, ha, b, hb, ho, rfl⟩
    · rintro ⟨a, ha, b, hb, ho, rfl⟩
      exact ⟨a, ha, b, ⟨hb, ho⟩, rfl⟩
  | KDTREE =>
    simp only [resolveLocal]
    split
    · simp only [List.mem_flatMap, List.mem_map, List.mem_filter, KdTree.mem_query_build]
      constructor
      · rintro ⟨b, hb, a, ⟨⟨ha, _⟩, ho⟩, rfl⟩
        exact ⟨a, ha, b, hb, ho, rfl⟩
      · rintro ⟨a, ha, b, hb, ho, rfl⟩
        exact ⟨b, hb, a, ⟨⟨ha, enclosing_overlaps_of_overlaps ho⟩, ho⟩, rfl⟩
    · simp only [List.mem_flatMap, List.mem_map, List.mem_filter, KdTree.mem_query_build]
      constructor
      · rintro ⟨a, ha, b, ⟨⟨hb, _⟩, ho⟩, rfl⟩
        exact ⟨a, ha, b, hb, ho, rfl⟩
      · rintro ⟨a, ha, b, hb, ho, rfl⟩
        refine ⟨a, ha, b, ⟨⟨hb, ?_⟩, ho⟩, rfl⟩
        rw [StkBox.overlaps_comm]
        exact enclosing_overlaps_of_overlaps ho

/-! ## Distributed exchange -/

theorem processInput_of_lt {comm : List ProcessInput} {q : Nat} (h : q < comm.length) :
    processInput comm q = comm[q] := by
  unfold processInput
  exact List.getD_eq_getElem _ _ h

theorem processInput_of_le {comm : List ProcessInput} {q : Nat} (h : comm.length ≤ q) :
    processInput comm q = ⟨[], []⟩ := by
  unfold processInput
  exact List.getD_eq_default _ _ h

theorem mem_gatherA {comm : List ProcessInput} {v : TaggedVolume} :
    v ∈ gatherA comm ↔ ∃ q, q < comm.length ∧ v ∈ (processInput comm q).collectionA := by
  simp only [gatherA, List.mem_flatMap]
  constructor
  · rintro ⟨inp, hin, hv⟩
    obtain ⟨q, hq, rfl⟩ := List.mem_iff_getElem.mp hin
    exact ⟨q, hq, by rw [processInput_of_lt hq]; exact hv⟩
  · rintro ⟨q, hq, hv⟩
    rw [processInput_of_lt hq] at hv
    exact ⟨comm[q], List.getElem_mem _, hv⟩

theorem mem_gatherB {comm : List ProcessInput} {v : TaggedVolume} :
    v ∈ gatherB comm ↔ ∃ q, q < comm.length ∧ v ∈ (processInput comm q).collectionB := by
  simp only [gatherB, List.mem_flatMap]
  constructor
  · rintro ⟨inp, hin, hv⟩
    obtain ⟨q, hq, rfl⟩ := List.mem_iff_getElem.mp hin
    exact ⟨q, hq, by rw [processInput_of_lt hq]; exact hv⟩
  · rintro ⟨q, hq, hv⟩
    rw [processInput_of_lt hq] at hv
    exact ⟨comm[q], List.getElem_mem _, hv⟩

theorem lt_of_mem_processInputA {comm : List ProcessInput} {q : Nat} {v : TaggedVolume}
    (hv : v ∈ (processInput comm q).collectionA) : q < comm.length := by
  by_contra hc
  rw [processInput_of_le (not_lt.mp hc)] at hv
  cases hv

theorem lt_of_mem_processInputB {comm : List ProcessInput} {q : Nat} {v : TaggedVolume}
    (hv : v ∈ (processInput comm q).collectionB) : q < comm.length := by
  by_contra hc
  rw [processInput_of_le (not_lt.mp hc)] at hv
  cases hv

theorem globalEnvelope_covers_A {inp : ProcessInput} {v : TaggedVolume}
    (hv : v ∈ inp.collectionA) :
    ∃ u, globalEnvelope inp = some u ∧ u.covers (enclosingBox v.1) := by
  unfold globalEnvelope
  apply unionAll_covers
  exact List.mem_map_of_mem (fun w => enclosingBox w.1) (List.mem_append_left _ hv)

theorem globalEnvelope_covers_B {inp : ProcessInput} {v : TaggedVolume}
    (hv : v ∈ inp.collectionB) :
    ∃ u, globalEnvelope inp = some u ∧ u.covers (enclosingBox v.1) := by
  unfold globalEnvelope
  apply unionAll_covers
  exact List.mem_map_of_mem (fun w => enclosingBox w.1) (List.mem_append_right _ hv)

theorem mem_sendList_A {src dst : ProcessInput} {v : TaggedVolume} :
    v ∈ (sendList src dst).collectionA ↔
      envelopesOverlap (globalEnvelope dst) (globalEnvelope src) = true ∧
      v ∈ src.collectionA ∧ boundsOverlap (globalEnvelope dst) (enclosingBox v.1) = true := by
  unfold sendList
  split
  · rename_i h
    simp [List.mem_filter, h]
  · rename_i h
    simp [h]

theorem mem_sendList_B {src dst : ProcessInput} {v : TaggedVolume} :
    v ∈ (sendList src dst).collectionB ↔
      envelopesOverlap (globalEnvelope dst) (globalEnvelope src) = true ∧
      v ∈ src.collectionB ∧ boundsOverlap (globalEnvelope dst) (enclosingBox v.1) = true := by
  unfold sendList
  split
  · rename_i h
    simp [List.mem_filter, h]
  · rename_i h
    simp [h]

theorem mem_received_A {comm : List ProcessInput} {rank : Nat} {v : TaggedVolume} :
    v ∈ (received comm rank).collectionA ↔
      ∃ q, q < comm.length ∧ q ≠ rank ∧
        v ∈ (sendList (processInput comm q) (processInput comm rank)).collectionA := by
  simp only [received, List.mem_flatMap, List.mem_filter, List.mem_range, decide_eq_true_eq]
  constructor
  · rintro ⟨q, ⟨hq, hne⟩, hv⟩
    exact ⟨q, hq, hne, hv⟩
  · rintro ⟨q, hq, hne, hv⟩
    exact ⟨q, ⟨hq, hne⟩, hv⟩

theorem mem_received_B {comm : List ProcessInput} {rank : Nat} {v : TaggedVolume} :
    v ∈ (received comm rank).collectionB ↔
      ∃ q, q < comm.length ∧ q ≠ rank ∧
        v ∈ (sendList (processInput comm q) (processInput comm rank)).collectionB := by
  simp only [received, List.mem_flatMap, List.mem_filter, List.mem_range, decide_eq_true_eq]
  constructor
  · rintro ⟨q, ⟨hq, hne⟩, hv⟩
    exact ⟨q, hq, hne, hv⟩
  · rintro ⟨q, hq, hne, hv⟩
    exact ⟨q, ⟨hq, hne⟩, hv⟩

/-- A volume whose enclosing box overlaps that of a local volume of the
destination is shipped to it. -/
theorem shipped_B {src dst : ProcessInput} {a b : TaggedVolume}
    (ha : a ∈ dst.collectionA) (hb : b ∈ src.collectionB)
    (ho : overlaps a.1 b.1 = true) : b ∈ (sendList src dst).collectionB := by
  obtain ⟨ud, hud, hcd⟩ := globalEnvelope_covers_A ha
  obtain ⟨us, hus, hcs⟩ := globalEnvelope_covers_B hb
  have hab := enclosing_overlaps_of_overlaps ho
  have h1 : ud.overlaps (enclosingBox b.1) = true := StkBox.overlaps_of_covers hcd hab
  have h2 : ud.overlaps us = true := by
    rw [StkBox.overlaps_comm]
    apply StkBox.overlaps_of_covers hcs
    rw [StkBox.overlaps_comm]
    exact h1
  rw [mem_sendList_B]
  refine ⟨?_, hb, ?_⟩
  · simp only [envelopesOverlap, hud, hus, h2]
  · simp only [boundsOverlap, hud, h1]

/-- Every pair resolved on a process is an overlapping pair of the two whole
collections. -/
theorem resolvedOn_sound {method : SearchMethod} {comm : List ProcessInput} {q : Nat}
    {pr : IdentPair} (h : pr ∈ resolvedOn method comm q) :
    ∃ a ∈ gatherA comm, ∃ b ∈ gatherB comm, overlaps a.1 b.1 = true ∧ pr = (a.2, b.2) := by
  simp only [resolvedOn, List.mem_append, mem_resolveLocal] at h
  rcases h with ⟨a, ha, b, hb, ho, rfl⟩ | ⟨a, ha, b, hb, ho, rfl⟩
  · refine ⟨a, mem_gatherA.mpr ⟨q, lt_of_mem_processInputA ha, ha⟩, b, ?_, ho, rfl⟩
    rcases hb with hb | hb
    · exact mem_gatherB.mpr ⟨q, lt_of_mem_processInputB hb, hb⟩
    · obtain ⟨s, hs, _, hsend⟩ := mem_received_B.mp hb
      exact mem_gatherB.mpr ⟨s, hs, (mem_sendList_B.mp hsend).2.1⟩
  · obtain ⟨s, hs, _, hsend⟩ := mem_received_A.mp ha
    exact ⟨a, mem_gatherA.mpr ⟨s, hs, (mem_sendList_A.mp hsend).2.1⟩, b,
      mem_gatherB.mpr ⟨q, lt_of_mem_processInputB hb, hb⟩, ho, rfl⟩

/-- Every overlapping pair is resolved on the process that holds its first
half. -/
theorem resolvedOn_complete {method : SearchMethod} {comm : List ProcessInput} {q1 q2 : Nat}
    {a b : TaggedVolume} (ha : a ∈ (processInput comm q1).collectionA)
    (hb : b ∈ (processInput comm q2).collectionB) (ho : overlaps a.1 b.1 = true) :
    (a.2, b.2) ∈ resolvedOn method comm q1 := by
  simp only [resolvedOn, List.mem_append, mem_resolveLocal]
  left
  refine ⟨a, ha, b, ?_, ho, rfl⟩
  by_cases hq : q2 = q1
  · left
    rw [← hq]
    exact hb
  · right
    exact mem_received_B.mpr ⟨q2, lt_of_mem_processInputB hb, hq, shipped_B ha hb ho⟩

theorem mem_delivered {method : SearchMethod} {comm : List ProcessInput} {rank : Nat}
    {pr : IdentPair} :
    pr ∈ delivered method comm rank ↔
      (pr.1.proc = rank ∨ pr.2.proc = rank) ∧
      ∃ a ∈ gatherA comm, ∃ b ∈ gatherB comm, overlaps a.1 b.1 = true ∧ pr = (a.2, b.2) := by
  simp only [delivered, List.mem_flatMap, List.mem_filter, List.mem_range, decide_eq_true_eq]
  constructor
  · rintro ⟨q, _, hres, hown⟩
    exact ⟨hown, resolvedOn_sound hres⟩
  · rintro ⟨hown, a, ha, b, hb, ho, rfl⟩
    obtain ⟨q1, hq1, ha1⟩ := mem_gatherA.mp ha
    obtain ⟨q2, _, hb2⟩ := mem_gatherB.mp hb
    exact ⟨q1, hq1, resolvedOn_complete ha1 hb2 ho, hown⟩

/-! ## Result assembler and the search as a whole -/

theorem mem_assemble {pairs : List IdentPair} {pr : IdentPair} :
    pr ∈ assemble pairs ↔ pr ∈ pairs := by
  unfold assemble
  rw [(List.perm_insertionSort _ _).mem_iff, List.mem_dedup]

theorem nodup_assemble (pairs : List IdentPair) : (assemble pairs).Nodup := by
  unfold assemble
  rw [(List.perm_insertionSort _ _).nodup_iff]
  exact List.nodup_dedup _

/-- The result on a process holds no pair twice. -/
theorem nodup_coarse_search (method : SearchMethod) (comm : List ProcessInput) (rank : Nat) :
    (coarse_search method comm rank).Nodup :=
  nodup_assemble _

/-- The result on process `rank`: the overlapping pairs of the two whole
collections of which `rank` owns a half. -/
theorem mem_coarse_search {method : SearchMethod} {comm : List ProcessInput} {rank : Nat}
    {pr : IdentPair} :
    pr ∈ coarse_search method comm rank ↔
      (pr.1.proc = rank ∨ pr.2.proc = rank) ∧
      ∃ a ∈ gatherA comm, ∃ b ∈ gatherB comm, overlaps a.1 b.1 = true ∧ pr = (a.2, b.2) := by
  unfold coarse_search
  rw [mem_assemble, mem_delivered]

/-! ## The scenarios -/

theorem mapM_ok {α β : Type} (f : α → Except SearchError β) (g : α → β) (l : List α)
    (h : ∀ a ∈ l, f a = .ok (g a)) : l.mapM f = .ok (l.map g) := by
  induction l with
  | nil => rfl
  | cons a rest ih =>
    rw [List.mapM_cons, h a (List.mem_cons_self _ _), ih fun b hb => h b (List.mem_cons_of_mem _ hb)]
    rfl

theorem eq_singleton_of_nodup {α : Type} {l : List α} {a : α} (hn : l.Nodup)
    (hm : ∀ x, x ∈ l ↔ x = a) : l = [a] := by
  have hp : l.Perm [a] := by
    rw [List.perm_ext_iff_of_nodup hn (List.nodup_singleton a)]
    intro x
    rw [hm x, List.mem_singleton]
  exact List.perm_singleton.mp hp

theorem twoSpheresInput_ok (d r : ℚ) (hr : 0 ≤ r) (p : Nat) :
    twoSpheresInput d r p =
      .ok ⟨[(.sphere ⟨⟨0, 0, 0⟩, r, hr⟩, ⟨1, p⟩)], [(.sphere ⟨⟨d, 0, 0⟩, r, hr⟩, ⟨2, p⟩)]⟩ := by
  simp only [twoSpheresInput, generateBoundingVolume, hr, dite_true]
  rfl

/-- The two-spheres scenario on one process, for any radius and distance. -/
theorem runTwoSpheresTest_single (m : SearchMethod) (d r : ℚ) (hr : 0 ≤ r) :
    runTwoSpheresTest m d r 1 0 =
      .ok (if d ^ 2 ≤ (r + r) ^ 2 then [(⟨1, 0⟩, ⟨2, 0⟩)] else []) := by
  unfold runTwoSpheresTest
  rw [mapM_ok _ _ _ fun p _ => twoSpheresInput_ok d r hr p]
  show Except.ok _ = _
  congr 1
  have hmem : ∀ pr : IdentPair,
      pr ∈ coarse_search m ((List.range 1).map fun p =>
        (⟨[(.sphere ⟨⟨0, 0, 0⟩, r, hr⟩, ⟨1, p⟩)], [(.sphere ⟨⟨d, 0, 0⟩, r, hr⟩, ⟨2, p⟩)]⟩ :
          ProcessInput)) 0 ↔
        d ^ 2 ≤ (r + r) ^ 2 ∧ pr = (⟨1, 0⟩, ⟨2, 0⟩) := by
    intro pr
    rw [mem_coarse_search]
    rw [show List.range 1 = [0] from rfl]
    simp only [gatherA, gatherB, List.map_cons, List.map_nil, List.flatMap_cons,
      List.flatMap_nil, List.append_nil, List.mem_singleton, exists_eq_left]
    simp only [overlaps, squaredDistance, decide_eq_true_eq]
    constructor
    · rintro ⟨_, ho, rfl⟩
      refine ⟨?_, rfl⟩
      nlinarith [ho]
    · rintro ⟨ho, rfl⟩
      refine ⟨Or.inl rfl, ?_, rfl⟩
      nlinarith [ho]
  split
  · rename_i h
    apply eq_singleton_of_nodup (nodup_coarse_search _ _ _)
    intro pr
    rw [hmem pr]
    exact ⟨fun hx => hx.2, fun hx => ⟨h, hx⟩⟩
  · rename_i h
    apply List.eq_nil_iff_forall_not_mem.mpr
    intro pr hpr
    exact h ((hmem pr).mp hpr).1

/-- C2: for every radius `r >= 0` and centre distance `d >= 0`, on a single
process, `coarse_search` on the sphere of radius `r` at the origin (id 1) and
the sphere of radius `r` at `(d, 0, 0)` (id 2) returns exactly the pair
(id 1, id 2) when `d^2 <= (r + r)^2`, and no pair otherwise; with either
search method. -/
theorem two_spheres_pair_iff_within_radii (m : SearchMethod) (r d : ℚ) (hr : 0 ≤ r)
    (hd : 0 ≤ d) :
    runTwoSpheresTest m d r 1 0 =
      .ok (if d ^ 2 ≤ (r + r) ^ 2 then [(⟨1, 0⟩, ⟨2, 0⟩)] else []) := by
  have _ := hd
  exact runTwoSpheresTest_single m d r hr

/-- Witness for C2: the four two-spheres tests, radius one half at centre
distances 0.5, 0.999999999 (one pair), 2.0 and 1.0000000001 (no pair). -/
theorem two_spheres_pair_iff_within_radii_witness :
    runTwoSpheresTest .KDTREE (1 / 2) radiusOfOneHalf 1 0 = .ok [(⟨1, 0⟩, ⟨2, 0⟩)] ∧
    runTwoSpheresTest .KDTREE (999999999 / 1000000000) radiusOfOneHalf 1 0
      = .ok [(⟨1, 0⟩, ⟨2, 0⟩)] ∧
    runTwoSpheresTest .KDTREE 2 radiusOfOneHalf 1 0 = .ok [] ∧
    runTwoSpheresTest .KDTREE (10000000001 / 10000000000) radiusOfOneHalf 1 0 = .ok [] := by
  have hr : (0 : ℚ) ≤ radiusOfOneHalf := by norm_num [radiusOfOneHalf]
  refine ⟨?_, ?_, ?_, ?_⟩
  · rw [two_spheres_pair_iff_within_radii .KDTREE radiusOfOneHalf (1 / 2) hr (by norm_num)]
    norm_num [radiusOfOneHalf]
  · rw [two_spheres_pair_iff_within_radii .KDTREE radiusOfOneHalf (999999999 / 1000000000) hr
      (by norm_num)]
    norm_num [radiusOfOneHalf]
  · rw [two_spheres_pair_iff_within_radii .KDTREE radiusOfOneHalf 2 hr (by norm_num)]
    norm_num [radiusOfOneHalf]
  · rw [two_spheres_pair_iff_within_radii .KDTREE radiusOfOneHalf (10000000001 / 10000000000) hr
      (by norm_num)]
    norm_num [radiusOfOneHalf]

/-- C9 fails as the spec words it: two spheres of radius 1 whose centres are
1.0000000001 apart do overlap, and `coarse_search` returns their pair. -/
theorem unit_radius_spheres_near_one_overlap :
    runTwoSpheresTest .KDTREE (10000000001 / 10000000000) 1 1 0 = .ok [(⟨1, 0⟩, ⟨2, 0⟩)] ∧
    runTwoSpheresTest .KDTREE (10000000001 / 10000000000) 1 1 0 ≠ .ok [] := by
  have h := runTwoSpheresTest_single .KDTREE (10000000001 / 10000000000) 1 (by norm_num)
  have hc : ((10000000001 / 10000000000 : ℚ)) ^ 2 ≤ (1 + 1) ^ 2 := by norm_num
  rw [if_pos hc] at h
  refine ⟨h, ?_⟩
  rw [h]
  intro hcon
  cases hcon

/-- C9, amended: sphere-sphere overlap is decided by squared centre distance
against the squared sum of the radii, boundary included.  Two spheres of
radius 1 whose centres are exactly 1.0 apart overlap; two spheres of radius 0.5
(unit diameter, the spheres of the tests) overlap at centre distance exactly
1.0 and do not overlap at centre distance 1.0000000001; two spheres of radius 1
stop overlapping only beyond centre distance 2. -/
theorem boundary_inclusivity_of_spheres (m : SearchMethod) :
    runTwoSpheresTest m 1 1 1 0 = .ok [(⟨1, 0⟩, ⟨2, 0⟩)] ∧
    runTwoSpheresTest m 1 radiusOfOneHalf 1 0 = .ok [(⟨1, 0⟩, ⟨2, 0⟩)] ∧
    runTwoSpheresTest m (10000000001 / 10000000000) radiusOfOneHalf 1 0 = .ok [] ∧
    runTwoSpheresTest m 2 1 1 0 = .ok [(⟨1, 0⟩, ⟨2, 0⟩)] ∧
    runTwoSpheresTest m (20000000001 / 10000000000) 1 1 0 = .ok [] := by
  have hr : (0 : ℚ) ≤ radiusOfOneHalf := by norm_num [radiusOfOneHalf]
  refine ⟨?_, ?_, ?_, ?_, ?_⟩
  · rw [runTwoSpheresTest_single m 1 1 (by norm_num)]
    norm_num
  · rw [runTwoSpheresTest_single m 1 radiusOfOneHalf hr]
    norm_num [radiusOfOneHalf]
  · rw [runTwoSpheresTest_single m (10000000001 / 10000000000) radiusOfOneHalf hr]
    norm_num [radiusOfOneHalf]
  · rw [runTwoSpheresTest_single m 2 1 (by norm_num)]
    norm_num
  · rw [runTwoSpheresTest_single m (20000000001 / 10000000000) 1 (by norm_num)]
    norm_num

theorem gatherA_swap (comm : List ProcessInput) :
    gatherA (comm.map ProcessInput.swap) = gatherB comm := by
  simp only [gatherA, gatherB, List.flatMap_map]
  rfl

theorem gatherB_swap (comm : List ProcessInput) :
    gatherB (comm.map ProcessInput.swap) = gatherA comm := by
  simp only [gatherA, gatherB, List.flatMap_map]
  rfl

/-- C7: symmetry.  For all collections of any mix of points, spheres and boxes,
on every process, the set of pairs of `coarse_search(B, A)` is the set of pairs
of `coarse_search(A, B)` with the two components of each pair exchanged. -/
theorem coarse_search_symmetry (m : SearchMethod) (comm : List ProcessInput) (rank : Nat) :
    (coarse_search m (comm.map ProcessInput.swap) rank).toFinset =
      (coarse_search m comm rank).toFinset.image Prod.swap := by
  ext pr
  simp only [List.mem_toFinset, Finset.mem_image, mem_coarse_search, gatherA_swap, gatherB_swap]
  constructor
  · rintro ⟨hown, b, hb, a, ha, ho, rfl⟩
    refine ⟨(a.2, b.2), ⟨hown.symm, a, ha, b, hb, ?_, rfl⟩, rfl⟩
    rw [overlaps_symm]
    exact ho
  · rintro ⟨pr0, ⟨hown, a, ha, b, hb, ho, rfl⟩, rfl⟩
    refine ⟨hown.symm, b, hb, a, ha, ?_, rfl⟩
    rw [overlaps_symm]
    exact ho

theorem lineVolume_ok (kind : VolumeKind) (axis : Axis) (p : Nat) :
    ∃ v, lineVolume kind axis p = .ok (v, ⟨1, p⟩) := by
  have hr : (0 : ℚ) ≤ 708 / 1000 := by norm_num
  cases kind <;> cases axis <;>
    simp only [lineVolume, generateBoundingVolume, hr, dite_true] <;> exact ⟨_, rfl⟩

/-- C8: empty input.  When the second collection is empty on every process, or
the first one is, `coarse_search` returns the empty pair set on every process,
whatever the other collection holds; so `coarse_search(X, [])` and
`coarse_search([], X)` on one process are empty for every `X`, and the line
test on one process, its collection A of one volume and its collection B
empty, returns no pair and no error. -/
theorem coarse_search_empty_input (m : SearchMethod) (comm : List ProcessInput) (rank : Nat)
    (collX : List TaggedVolume) (kind : VolumeKind) (axis : Axis) :
    (gatherB comm = [] → coarse_search m comm rank = []) ∧
    (gatherA comm = [] → coarse_search m comm rank = []) ∧
    coarse_search m [⟨collX, []⟩] 0 = [] ∧
    coarse_search m [⟨[], collX⟩] 0 = [] ∧
    runLineOfBoundingBoxes kind m axis 1 0 = .ok [] := by
  have hB : ∀ (c : List ProcessInput) (r : Nat), gatherB c = [] → coarse_search m c r = [] := by
    intro c r h
    apply List.eq_nil_iff_forall_not_mem.mpr
    intro pr hpr
    obtain ⟨_, a, _, b, hb, _⟩ := mem_coarse_search.mp hpr
    rw [h] at hb
    cases hb
  have hA : ∀ (c : List ProcessInput) (r : Nat), gatherA c = [] → coarse_search m c r = [] := by
    intro c r h
    apply List.eq_nil_iff_forall_not_mem.mpr
    intro pr hpr
    obtain ⟨_, a, ha, _⟩ := mem_coarse_search.mp hpr
    rw [h] at ha
    cases ha
  refine ⟨hB comm rank, hA comm rank, hB [⟨collX, []⟩] 0 rfl, hA [⟨[], collX⟩] 0 rfl, ?_⟩
  obtain ⟨v, hv⟩ := lineVolume_ok kind axis 0
  have hin : lineInput kind axis 0 = .ok ⟨[(v, ⟨1, 0⟩)], []⟩ := by
    simp only [lineInput, hv]
    rfl
  unfold runLineOfBoundingBoxes
  rw [show List.range 1 = [0] from rfl, List.mapM_cons, hin]
  show Except.ok (coarse_search m [⟨[(v, ⟨1, 0⟩)], []⟩] 0) = _
  rw [hB [⟨[(v, ⟨1, 0⟩)], []⟩] 0 rfl]

/-! ### The grid scenario -/

theorem generateBoundingVolume_ok (kind : VolumeKind) (x y z r : ℚ) (id : Int) (proc : Nat)
    (hr : 0 ≤ r) :
    generateBoundingVolume kind x y z r id proc = .ok (makeVolume kind x y z r hr, ⟨id, proc⟩) := by
  cases kind
  · rfl
  · simp only [generateBoundingVolume, hr, dite_true]
  · simp only [generateBoundingVolume, hr, dite_true]

theorem length_eq_of_nodup_of_mem_iff {α : Type} {l l2 : List α} (hn : l.Nodup)
    (hn2 : l2.Nodup) (h : ∀ x, x ∈ l ↔ x ∈ l2) : l.length = l2.length :=
  ((List.perm_ext_iff_of_nodup hn hn2).mpr h).length_eq

theorem eightSurroundingInput_ok (inner outer : VolumeKind) (r : ℚ) (hr : 0 ≤ r)
    (numProc q : Nat) :
    eightSurroundingInput inner outer r numProc q =
      .ok ⟨if q = 0 then eightVolumes outer r hr q else [],
        if q = numProc - 1 then [(makeVolume inner 1 1 0 r hr, ⟨5, q⟩)] else []⟩ := by
  unfold eightSurroundingInput
  simp only [generateBoundingVolume_ok _ _ _ _ _ _ _ hr]
  split_ifs <;> rfl

/-- The group of the grid scenario, with well-formed volumes. -/
theorem runBoxOverlappingEightSurroundingBoxes_ok (inner outer : VolumeKind) (m : SearchMethod)
    (r : ℚ) (hr : 0 ≤ r) (numProc p : Nat) :
    runBoxOverlappingEightSurroundingBoxes inner outer m r numProc p =
      .ok (coarse_search m ((List.range numProc).map fun q =>
        (⟨if q = 0 then eightVolumes outer r hr q else [],
          if q = numProc - 1 then [(makeVolume inner 1 1 0 r hr, ⟨5, q⟩)] else []⟩ :
            ProcessInput)) p) := by
  unfold runBoxOverlappingEightSurroundingBoxes
  rw [mapM_ok _ _ _ fun q _ => eightSurroundingInput_ok inner outer r hr numProc q]
  rfl

theorem mem_gatherA_eight {inner outer : VolumeKind} {r : ℚ} {hr : 0 ≤ r} {numProc : Nat}
    (hP : 1 ≤ numProc) {a : TaggedVolume} :
    a ∈ gatherA ((List.range numProc).map fun q =>
        (⟨if q = 0 then eightVolumes outer r hr q else [],
          if q = numProc - 1 then [(makeVolume inner 1 1 0 r hr, ⟨5, q⟩)] else []⟩ :
            ProcessInput)) ↔
      a ∈ eightVolumes outer r hr 0 := by
  simp only [gatherA, List.mem_flatMap, List.mem_map, List.mem_range]
  constructor
  · rintro ⟨inp, ⟨q, _, rfl⟩, ha⟩
    by_cases h0 : q = 0
    · subst h0
      simpa using ha
    · simp [h0] at ha
  · intro ha
    exact ⟨_, ⟨0, by omega, rfl⟩, by simpa using ha⟩

theorem mem_gatherB_eight {inner outer : VolumeKind} {r : ℚ} {hr : 0 ≤ r} {numProc : Nat}
    (hP : 1 ≤ numProc) {b : TaggedVolume} :
    b ∈ gatherB ((List.range numProc).map fun q =>
        (⟨if q = 0 then eightVolumes outer r hr q else [],
          if q = numProc - 1 then [(makeVolume inner 1 1 0 r hr, ⟨5, q⟩)] else []⟩ :
            ProcessInput)) ↔
      b = (makeVolume inner 1 1 0 r hr, ⟨5, numProc - 1⟩) := by
  simp only [gatherB, List.mem_flatMap, List.mem_map, List.mem_range]
  constructor
  · rintro ⟨inp, ⟨q, _, rfl⟩, hb⟩
    by_cases h1 : q = numProc - 1
    · subst h1
      simpa using hb
    · simp [h1] at hb
  · intro hb
    exact ⟨_, ⟨numProc - 1, by omega, rfl⟩, by simpa using hb⟩

/-- The grid scenario on a process that holds a volume (rank `0` or the last
rank): no error, no pair twice, and exactly the pairs of the outer volumes that
overlap the inner one. -/
theorem eight_surrounding_result (inner outer : VolumeKind) (m : SearchMethod) (r : ℚ)
    (hr : 0 ≤ r) (numProc p : Nat) (hP : 1 ≤ numProc) (hp : p = 0 ∨ p = numProc - 1) :
    ∃ res, runBoxOverlappingEightSurroundingBoxes inner outer m r numProc p = .ok res ∧
      res.Nodup ∧
      ∀ pr, pr ∈ res ↔
        pr ∈ (gridPositions.filter fun g =>
          overlaps (makeVolume outer g.1 g.2.1 0 r hr) (makeVolume inner 1 1 0 r hr)).map
            fun g => ((⟨g.2.2, 0⟩, ⟨5, numProc - 1⟩) : IdentPair) := by
  refine ⟨_, runBoxOverlappingEightSurroundingBoxes_ok inner outer m r hr numProc p,
    nodup_coarse_search _ _ _, ?_⟩
  intro pr
  rw [mem_coarse_search]
  simp only [mem_gatherA_eight hP, mem_gatherB_eight hP, exists_eq_left]
  simp only [eightVolumes, List.mem_map, List.mem_filter]
  constructor
  · rintro ⟨_, a, ⟨g, hg, rfl⟩, ho, rfl⟩
    exact ⟨g, ⟨hg, ho⟩, rfl⟩
  · rintro ⟨g, ⟨hg, ho⟩, rfl⟩
    refine ⟨?_, _, ⟨g, hg, rfl⟩, ho, rfl⟩
    rcases hp with h | h
    · left
      exact h.symm
    · right
      exact h.symm

theorem nodup_grid_pairs (numProc : Nat) (f : ℚ × ℚ × Int → Bool) :
    ((gridPositions.filter f).map
      fun g => ((⟨g.2.2, 0⟩, ⟨5, numProc - 1⟩) : IdentPair)).Nodup := by
  have hall : (gridPositions.map
      fun g => ((⟨g.2.2, 0⟩, ⟨5, numProc - 1⟩) : IdentPair)).Nodup := by
    simp [gridPositions]
  exact hall.sublist ((List.filter_sublist _).map _)

/-- The number of pairs of the grid scenario is the number of outer volumes
that overlap the inner one. -/
theorem eight_surrounding_length (inner outer : VolumeKind) (m : SearchMethod) (r : ℚ)
    (hr : 0 ≤ r) (numProc p : Nat) (hP : 1 ≤ numProc) (hp : p = 0 ∨ p = numProc - 1) :
    ∃ res, runBoxOverlappingEightSurroundingBoxes inner outer m r numProc p = .ok res ∧
      res.length = (gridPositions.filter fun g =>
          overlaps (makeVolume outer g.1 g.2.1 0 r hr) (makeVolume inner 1 1 0 r hr)).length := by
  obtain ⟨res, hres, hn, hmem⟩ := eight_surrounding_result inner outer m r hr numProc p hP hp
  refine ⟨res, hres, ?_⟩
  rw [length_eq_of_nodup_of_mem_iff hn (nodup_grid_pairs numProc _) hmem, List.length_map]

theorem overlaps_sphere_sphere_grid (i j r : ℚ) (hr : 0 ≤ r) :
    overlaps (makeVolume .Sphere i j 0 r hr) (makeVolume .Sphere 1 1 0 r hr) =
      decide ((i - 1) ^ 2 + (j - 1) ^ 2 ≤ (2 * r) ^ 2) := by
  rw [Bool.eq_iff_iff]
  simp only [overlaps, makeVolume, squaredDistance, decide_eq_true_eq]
  constructor <;> intro h <;> nlinarith [h]

theorem overlaps_point_sphere_grid (i j r : ℚ) (hr : 0 ≤ r) :
    overlaps (makeVolume .Point i j 0 r hr) (makeVolume .Sphere 1 1 0 r hr) =
      decide ((i - 1) ^ 2 + (j - 1) ^ 2 ≤ r ^ 2) := by
  rw [Bool.eq_iff_iff]
  simp only [overlaps, makeVolume, squaredDistance, decide_eq_true_eq]
  constructor <;> intro h <;> nlinarith [h]

theorem overlaps_point_box_grid (i j r : ℚ) (hr : 0 ≤ r) :
    overlaps (makeVolume .Point i j 0 r hr) (makeVolume .StkBox 1 1 0 r hr) =
      decide ((1 - r ≤ i ∧ i ≤ 1 + r) ∧ (1 - r ≤ j ∧ j ≤ 1 + r)) := by
  rw [Bool.eq_iff_iff]
  simp only [overlaps, makeVolume, enclosingBox, StkBox.overlaps_iff, decide_eq_true_eq]
  constructor
  · rintro ⟨⟨h1, h2⟩, ⟨h3, h4⟩, _⟩
    exact ⟨⟨h2, h1⟩, ⟨h4, h3⟩⟩
  · rintro ⟨⟨h1, h2⟩, ⟨h3, h4⟩⟩
    exact ⟨⟨h2, h1⟩, ⟨h4, h3⟩, ⟨by linarith, by linarith⟩⟩

theorem overlaps_box_point_grid (i j r : ℚ) (hr : 0 ≤ r) :
    overlaps (makeVolume .StkBox i j 0 r hr) (makeVolume .Point 1 1 0 r hr) =
      decide ((i - r ≤ 1 ∧ 1 ≤ i + r) ∧ (j - r ≤ 1 ∧ 1 ≤ j + r)) := by
  rw [Bool.eq_iff_iff]
  simp only [overlaps, makeVolume, enclosingBox, StkBox.overlaps_iff, decide_eq_true_eq]
  constructor
  · rintro ⟨⟨h1, h2⟩, ⟨h3, h4⟩, _⟩
    exact ⟨⟨h1, h2⟩, ⟨h3, h4⟩⟩
  · rintro ⟨⟨h1, h2⟩, ⟨h3, h4⟩⟩
    exact ⟨⟨h1, h2⟩, ⟨h3, h4⟩, ⟨by linarith, by linarith⟩⟩

/-- Grid positions within squared distance `t` of the centre: all eight from
`t = 2` on, the four axis-aligned neighbours from `t = 1` on, none below. -/
theorem grid_filter_of_dist (t : ℚ) :
    (gridPositions.filter fun g => decide ((g.1 - 1) ^ 2 + (g.2.1 - 1) ^ 2 ≤ t)) =
      if 2 ≤ t then gridPositions
      else if 1 ≤ t then [(1, 0, 2), (0, 1, 4), (2, 1, 6), (1, 2, 8)]
      else [] := by
  by_cases h2 : 2 ≤ t
  · have h1 : 1 ≤ t := by linarith
    simp only [h2, if_true]
    norm_num [gridPositions, List.filter_cons, h2, h1]
  · by_cases h1 : 1 ≤ t
    · simp only [h2, h1, if_true, if_false]
      norm_num [gridPositions, List.filter_cons, h2, h1]
    · simp only [h2, h1, if_false]
      norm_num [gridPositions, List.filter_cons, h2, h1]

/-- Grid positions within a box of half-width `r` around the centre (or whose
box of half-width `r` holds the centre): all eight from `r = 1` on, none below. -/
theorem grid_filter_of_halfwidth (r : ℚ) :
    (gridPositions.filter fun g =>
        decide ((1 - r ≤ g.1 ∧ g.1 ≤ 1 + r) ∧ (1 - r ≤ g.2.1 ∧ g.2.1 ≤ 1 + r))) =
      (if 1 ≤ r then gridPositions else []) ∧
    (gridPositions.filter fun g =>
        decide ((g.1 - r ≤ 1 ∧ 1 ≤ g.1 + r) ∧ (g.2.1 - r ≤ 1 ∧ 1 ≤ g.2.1 + r))) =
      (if 1 ≤ r then gridPositions else []) := by
  by_cases h1 : 1 ≤ r
  · simp only [h1, if_true]
    constructor
    · apply List.filter_eq_self.mpr
      intro g hg
      simp only [gridPositions, List.mem_cons, List.mem_singleton, List.not_mem_nil,
        or_false] at hg
      rcases hg with rfl | rfl | rfl | rfl | rfl | rfl | rfl | rfl <;>
        simp only [decide_eq_true_eq] <;>
        refine ⟨⟨?_, ?_⟩, ⟨?_, ?_⟩⟩ <;> linarith
    · apply List.filter_eq_self.mpr
      intro g hg
      simp only [gridPositions, List.mem_cons, List.mem_singleton, List.not_mem_nil,
        or_false] at hg
      rcases hg with rfl | rfl | rfl | rfl | rfl | rfl | rfl | rfl <;>
        simp only [decide_eq_true_eq] <;>
        refine ⟨⟨?_, ?_⟩, ⟨?_, ?_⟩⟩ <;> linarith
  · simp only [h1, if_false]
    have hlt : r < 1 := not_le.mp h1
    constructor
    · apply List.filter_eq_nil_iff.mpr
      intro g hg
      simp only [gridPositions, List.mem_cons, List.mem_singleton, List.not_mem_nil,
        or_false] at hg
      rcases hg with rfl | rfl | rfl | rfl | rfl | rfl | rfl | rfl <;>
        simp only [decide_eq_true_eq] <;>
        rintro ⟨⟨_, _⟩, ⟨_, _⟩⟩ <;> linarith
    · apply List.filter_eq_nil_iff.mpr
      intro g hg
      simp only [gridPositions, List.mem_cons, List.mem_singleton, List.not_mem_nil,
        or_false] at hg
      rcases hg with rfl | rfl | rfl | rfl | rfl | rfl | rfl | rfl <;>
        simp only [decide_eq_true_eq] <;>
        rintro ⟨⟨_, _⟩, ⟨_, _⟩⟩ <;> linarith

/-- C4: the grid scenario, sphere against spheres.  For every radius `r >= 0`,
with the eight spheres of radius `r` at the grid positions in collection A (on
rank `0`) and the sphere of radius `r` at `(1, 1, 0)` in collection B (on the
last rank), in a group of any size and on either rank that holds a volume,
`coarse_search` returns without error as many pairs as there are surrounding
spheres whose squared centre distance to `(1, 1, 0)` is at most `(2 r)^2`:
8 when `(2 r)^2 >= 2`, 4 when `1 <= (2 r)^2 < 2`, and then exactly the pairs of
the axis-aligned neighbours (ids 2, 4, 6, 8), and 0 when `(2 r)^2 < 1`. -/
theorem sphere_grid_pair_count (m : SearchMethod) (r : ℚ) (hr : 0 ≤ r) (numProc p : Nat)
    (hP : 1 ≤ numProc) (hp : p = 0 ∨ p = numProc - 1) :
    ∃ res, runBoxOverlappingEightSurroundingBoxes .Sphere .Sphere m r numProc p = .ok res ∧
      res.length = (gridPositions.filter fun g =>
        decide ((g.1 - 1) ^ 2 + (g.2.1 - 1) ^ 2 ≤ (2 * r) ^ 2)).length ∧
      res.length = (if 2 ≤ (2 * r) ^ 2 then 8 else if 1 ≤ (2 * r) ^ 2 then 4 else 0) ∧
      (1 ≤ (2 * r) ^ 2 → (2 * r) ^ 2 < 2 → ∀ pr : IdentPair, pr ∈ res ↔
        pr ∈ [((⟨2, 0⟩, ⟨5, numProc - 1⟩) : IdentPair), (⟨4, 0⟩, ⟨5, numProc - 1⟩),
          (⟨6, 0⟩, ⟨5, numProc - 1⟩), (⟨8, 0⟩, ⟨5, numProc - 1⟩)]) := by
  obtain ⟨res, hres, hn, hmem⟩ :=
    eight_surrounding_result .Sphere .Sphere m r hr numProc p hP hp
  simp only [overlaps_sphere_sphere_grid] at hmem
  have hlen := length_eq_of_nodup_of_mem_iff hn (nodup_grid_pairs numProc _) hmem
  rw [List.length_map] at hlen
  refine ⟨res, hres, hlen, ?_, ?_⟩
  · rw [hlen, grid_filter_of_dist]
    split_ifs <;> rfl
  · intro h1 h2 pr
    rw [hmem pr, grid_filter_of_dist, if_neg (not_le.mpr h2), if_pos h1]
    rfl

/-- Witness for C4: radius 0.708 gives 8 pairs and radius 0.706 gives 4, on one
process and on the first of two. -/
theorem sphere_grid_pair_count_witness :
    (∃ res, runBoxOverlappingEightSurroundingBoxes .Sphere .Sphere .KDTREE (708 / 1000) 1 0
      = .ok res ∧ res.length = 8) ∧
    (∃ res, runBoxOverlappingEightSurroundingBoxes .Sphere .Sphere .KDTREE (706 / 1000) 2 0
      = .ok res ∧ res.length = 4) := by
  constructor
  · obtain ⟨res, hres, _, hlen, _⟩ :=
      sphere_grid_pair_count .KDTREE (708 / 1000) (by norm_num) 1 0 (le_refl 1) (Or.inl rfl)
    refine ⟨res, hres, ?_⟩
    rw [hlen]
    norm_num
  · obtain ⟨res, hres, _, hlen, _⟩ :=
      sphere_grid_pair_count .KDTREE (706 / 1000) (by norm_num) 2 0 (by norm_num) (Or.inl rfl)
    refine ⟨res, hres, ?_⟩
    rw [hlen]
    norm_num

/-- C5: the grid scenario with point/box/sphere mixes, for every radius or
half-width `r >= 0`, in a group of any size and on either rank that holds a
volume, returns
without error as many pairs as there are (point, volume) combinations with the
point in the closed volume.  A centred sphere of radius `r` against the eight
points: 0 pairs for `r < 1`, 4 for `1 <= r` and `r^2 < 2`, 8 for `r^2 >= 2`.  A
centred box of half-width `r` against the eight points, and a centred point
against the eight boxes of half-width `r`: 0 pairs for `r < 1`, 8 for `r >= 1`. -/
theorem grid_point_mix_pair_count (m : SearchMethod) (r : ℚ) (hr : 0 ≤ r) (numProc p : Nat)
    (hP : 1 ≤ numProc) (hp : p = 0 ∨ p = numProc - 1) :
    (∃ res, runBoxOverlappingEightSurroundingBoxes .Sphere .Point m r numProc p = .ok res ∧
      res.length = (gridPositions.filter fun g =>
        decide ((g.1 - 1) ^ 2 + (g.2.1 - 1) ^ 2 ≤ r ^ 2)).length ∧
      res.length = (if 2 ≤ r ^ 2 then 8 else if 1 ≤ r then 4 else 0)) ∧
    (∃ res, runBoxOverlappingEightSurroundingBoxes .StkBox .Point m r numProc p = .ok res ∧
      res.length = (gridPositions.filter fun g =>
        decide ((1 - r ≤ g.1 ∧ g.1 ≤ 1 + r) ∧ (1 - r ≤ g.2.1 ∧ g.2.1 ≤ 1 + r))).length ∧
      res.length = (if 1 ≤ r then 8 else 0)) ∧
    (∃ res, runBoxOverlappingEightSurroundingBoxes .Point .StkBox m r numProc p = .ok res ∧
      res.length = (gridPositions.filter fun g =>
        decide ((g.1 - r ≤ 1 ∧ 1 ≤ g.1 + r) ∧ (g.2.1 - r ≤ 1 ∧ 1 ≤ g.2.1 + r))).length ∧
      res.length = (if 1 ≤ r then 8 else 0)) := by
  refine ⟨?_, ?_, ?_⟩
  · obtain ⟨res, hres, hn, hmem⟩ :=
      eight_surrounding_result .Sphere .Point m r hr numProc p hP hp
    simp only [overlaps_point_sphere_grid] at hmem
    have hlen := length_eq_of_nodup_of_mem_iff hn (nodup_grid_pairs numProc _) hmem
    rw [List.length_map] at hlen
    refine ⟨res, hres, hlen, ?_⟩
    rw [hlen, grid_filter_of_dist]
    have hiff : 1 ≤ r ^ 2 ↔ 1 ≤ r := by
      constructor
      · intro h
        by_contra hc
        push_neg at hc
        nlinarith
      · intro h
        nlinarith
    by_cases h2 : 2 ≤ r ^ 2
    · simp only [h2, if_true]
      rfl
    · by_cases h1 : 1 ≤ r
      · simp only [h2, h1, hiff.mpr h1, if_true, if_false]
        rfl
      · have h1sq : ¬ 1 ≤ r ^ 2 := fun h => h1 (hiff.mp h)
        simp only [h2, h1, h1sq, if_false]
        rfl
  · obtain ⟨res, hres, hn, hmem⟩ :=
      eight_surrounding_result .StkBox .Point m r hr numProc p hP hp
    simp only [overlaps_point_box_grid] at hmem
    have hlen := length_eq_of_nodup_of_mem_iff hn (nodup_grid_pairs numProc _) hmem
    rw [List.length_map] at hlen
    refine ⟨res, hres, hlen, ?_⟩
    rw [hlen, (grid_filter_of_halfwidth r).1]
    split_ifs <;> rfl
  · obtain ⟨res, hres, hn, hmem⟩ :=
      eight_surrounding_result .Point .StkBox m r hr numProc p hP hp
    simp only [overlaps_box_point_grid] at hmem
    have hlen := length_eq_of_nodup_of_mem_iff hn (nodup_grid_pairs numProc _) hmem
    rw [List.length_map] at hlen
    refine ⟨res, hres, hlen, ?_⟩
    rw [hlen, (grid_filter_of_halfwidth r).2]
    split_ifs <;> rfl

/-- Witness for C5: the tests of the point mixes.  Sphere of radius 0.99, 1.41,
1.42 against the points: 0, 4, 8 pairs; box of half-width 0.99, 1.01 against
the points and point against boxes of half-width 0.99, 1.01: 0, 8 pairs. -/
theorem grid_point_mix_pair_count_witness :
    (∃ res, runBoxOverlappingEightSurroundingBoxes .Sphere .Point .KDTREE (99 / 100) 1 0
      = .ok res ∧ res.length = 0) ∧
    (∃ res, runBoxOverlappingEightSurroundingBoxes .Sphere .Point .KDTREE (141 / 100) 1 0
      = .ok res ∧ res.length = 4) ∧
    (∃ res, runBoxOverlappingEightSurroundingBoxes .Sphere .Point .KDTREE (142 / 100) 1 0
      = .ok res ∧ res.length = 8) ∧
    (∃ res, runBoxOverlappingEightSurroundingBoxes .StkBox .Point .KDTREE (99 / 100) 1 0
      = .ok res ∧ res.length = 0) ∧
    (∃ res, runBoxOverlappingEightSurroundingBoxes .StkBox .Point .KDTREE (101 / 100) 1 0
      = .ok res ∧ res.length = 8) ∧
    (∃ res, runBoxOverlappingEightSurroundingBoxes .Point .StkBox .KDTREE (99 / 100) 1 0
      = .ok res ∧ res.length = 0) ∧
    (∃ res, runBoxOverlappingEightSurroundingBoxes .Point .StkBox .KDTREE (101 / 100) 1 0
      = .ok res ∧ res.length = 8) := by
  have h99 := grid_point_mix_pair_count .KDTREE (99 / 100) (by norm_num) 1 0 (le_refl 1)
    (Or.inl rfl)
  have h141 := grid_point_mix_pair_count .KDTREE (141 / 100) (by norm_num) 1 0 (le_refl 1)
    (Or.inl rfl)
  have h142 := grid_point_mix_pair_count .KDTREE (142 / 100) (by norm_num) 1 0 (le_refl 1)
    (Or.inl rfl)
  have h101 := grid_point_mix_pair_count .KDTREE (101 / 100) (by norm_num) 1 0 (le_refl 1)
    (Or.inl rfl)
  refine ⟨?_, ?_, ?_, ?_, ?_, ?_, ?_⟩
  · obtain ⟨res, hres, _, hlen⟩ := h99.1
    exact ⟨res, hres, by rw [hlen]; norm_num⟩
  · obtain ⟨res, hres, _, hlen⟩ := h141.1
    exact ⟨res, hres, by rw [hlen]; norm_num⟩
  · obtain ⟨res, hres, _, hlen⟩ := h142.1
    exact ⟨res, hres, by rw [hlen]; norm_num⟩
  · obtain ⟨res, hres, _, hlen⟩ := h99.2.1
    exact ⟨res, hres, by rw [hlen]; norm_num⟩
  · obtain ⟨res, hres, _, hlen⟩ := h101.2.1
    exact ⟨res, hres, by rw [hlen]; norm_num⟩
  · obtain ⟨res, hres, _, hlen⟩ := h99.2.2
    exact ⟨res, hres, by rw [hlen]; norm_num⟩
  · obtain ⟨res, hres, _, hlen⟩ := h101.2.2
    exact ⟨res, hres, by rw [hlen]; norm_num⟩

/-! ### The line scenario -/

theorem lineVolume_eq (kind : VolumeKind) (axis : Axis) (q : Nat) :
    lineVolume kind axis q = .ok (lineShape kind axis q, ⟨1, q⟩) := by
  cases axis <;>
    simp only [lineVolume, lineShape] <;>
    exact generateBoundingVolume_ok _ _ _ _ _ _ _ _

theorem lineInput_ok (kind : VolumeKind) (axis : Axis) (q : Nat) :
    lineInput kind axis q =
      .ok (if q % 2 = 0 then ⟨[(lineShape kind axis q, ⟨1, q⟩)], []⟩
        else ⟨[], [(lineShape kind axis q, ⟨1, q⟩)]⟩) := by
  simp only [lineInput, lineVolume_eq]
  split_ifs <;> rfl

theorem runLineOfBoundingBoxes_ok (kind : VolumeKind) (m : SearchMethod) (axis : Axis)
    (numProcs p : Nat) :
    runLineOfBoundingBoxes kind m axis numProcs p =
      .ok (coarse_search m ((List.range numProcs).map fun q =>
        (if q % 2 = 0 then ⟨[(lineShape kind axis q, ⟨1, q⟩)], []⟩
          else ⟨[], [(lineShape kind axis q, ⟨1, q⟩)]⟩ : ProcessInput)) p) := by
  unfold runLineOfBoundingBoxes
  rw [mapM_ok _ _ _ fun q _ => lineInput_ok kind axis q]
  rfl

theorem mem_gatherA_line {kind : VolumeKind} {axis : Axis} {numProcs : Nat}
    {a : TaggedVolume} :
    a ∈ gatherA ((List.range numProcs).map fun q =>
        (if q % 2 = 0 then ⟨[(lineShape kind axis q, ⟨1, q⟩)], []⟩
          else ⟨[], [(lineShape kind axis q, ⟨1, q⟩)]⟩ : ProcessInput)) ↔
      ∃ q, q < numProcs ∧ q % 2 = 0 ∧ a = (lineShape kind axis q, ⟨1, q⟩) := by
  simp only [gatherA, List.mem_flatMap, List.mem_map, List.mem_range]
  constructor
  · rintro ⟨inp, ⟨q, hq, rfl⟩, ha⟩
    by_cases h0 : q % 2 = 0
    · simp only [h0, if_true, List.mem_singleton] at ha
      exact ⟨q, hq, h0, ha⟩
    · simp [h0] at ha
  · rintro ⟨q, hq, h0, rfl⟩
    exact ⟨_, ⟨q, hq, rfl⟩, by simp [h0]⟩

theorem mem_gatherB_line {kind : VolumeKind} {axis : Axis} {numProcs : Nat}
    {b : TaggedVolume} :
    b ∈ gatherB ((List.range numProcs).map fun q =>
        (if q % 2 = 0 then ⟨[(lineShape kind axis q, ⟨1, q⟩)], []⟩
          else ⟨[], [(lineShape kind axis q, ⟨1, q⟩)]⟩ : ProcessInput)) ↔
      ∃ q, q < numProcs ∧ q % 2 = 1 ∧ b = (lineShape kind axis q, ⟨1, q⟩) := by
  simp only [gatherB, List.mem_flatMap, List.mem_map, List.mem_range]
  constructor
  · rintro ⟨inp, ⟨q, hq, rfl⟩, hb⟩
    by_cases h0 : q % 2 = 0
    · simp [h0] at hb
    · simp only [h0, if_false, List.mem_singleton] at hb
      exact ⟨q, hq, by omega, hb⟩
  · rintro ⟨q, hq, h1, rfl⟩
    have h0 : ¬ q % 2 = 0 := by omega
    exact ⟨_, ⟨q, hq, rfl⟩, by simp [h0]⟩

/-- Two volumes of the line (spheres of radius 0.708 or boxes of half-width
0.708 at integer positions) overlap exactly when their ranks differ by at most
one. -/
theorem overlaps_lineShape (kind : VolumeKind) (hk : kind = .Sphere ∨ kind = .StkBox)
    (axis : Axis) (q1 q2 : Nat) :
    overlaps (lineShape kind axis q1) (lineShape kind axis q2) = true ↔
      q1 ≤ q2 + 1 ∧ q2 ≤ q1 + 1 := by
  have key : ∀ a b : ℚ, (a = q1) → (b = q2) →
      (((a * 1 - b * 1) * (a * 1 - b * 1) ≤ (708 / 1000 + 708 / 1000) * (708 / 1000 + 708 / 1000))
        ↔ q1 ≤ q2 + 1 ∧ q2 ≤ q1 + 1) := by
    intro a b ha hb
    constructor
    · intro h
      constructor
      · by_contra hc
        have h2 : q2 + 2 ≤ q1 := by omega
        have h3 : (b : ℚ) + 2 ≤ a := by
          rw [ha, hb]
          exact_mod_cast h2
        nlinarith
      · by_contra hc
        have h2 : q1 + 2 ≤ q2 := by omega
        have h3 : (a : ℚ) + 2 ≤ b := by
          rw [ha, hb]
          exact_mod_cast h2
        nlinarith
    · rintro ⟨h1, h2⟩
      have h3 : (a : ℚ) ≤ b + 1 := by
        rw [ha, hb]
        exact_mod_cast h1
      have h4 : (b : ℚ) ≤ a + 1 := by
        rw [ha, hb]
        exact_mod_cast h2
      nlinarith
  have keybox : ∀ a b : ℚ, (a = q1) → (b = q2) →
      ((a * 1 - 708 / 1000 ≤ b * 1 + 708 / 1000 ∧ b * 1 - 708 / 1000 ≤ a * 1 + 708 / 1000)
        ↔ q1 ≤ q2 + 1 ∧ q2 ≤ q1 + 1) := by
    intro a b ha hb
    constructor
    · rintro ⟨h1, h2⟩
      constructor
      · by_contra hc
        have h3 : q2 + 2 ≤ q1 := by omega
        have h4 : (b : ℚ) + 2 ≤ a := by
          rw [ha, hb]
          exact_mod_cast h3
        linarith
      · by_contra hc
        have h3 : q1 + 2 ≤ q2 := by omega
        have h4 : (a : ℚ) + 2 ≤ b := by
          rw [ha, hb]
          exact_mod_cast h3
        linarith
    · rintro ⟨h1, h2⟩
      have h3 : (a : ℚ) ≤ b + 1 := by
        rw [ha, hb]
        exact_mod_cast h1
      have h4 : (b : ℚ) ≤ a + 1 := by
        rw [ha, hb]
        exact_mod_cast h2
      constructor <;> linarith
  rcases hk with rfl | rfl
  · cases axis <;>
      simp only [lineShape, makeVolume, overlaps, squaredDistance, decide_eq_true_eq,
        sub_self, mul_zero, add_zero, zero_add] <;>
      exact key _ _ rfl rfl
  · cases axis <;>
      simp only [lineShape, makeVolume, overlaps, enclosingBox, StkBox.overlaps_iff] <;>
      rw [← keybox _ _ rfl rfl] <;>
      constructor
    all_goals first
      | (rintro ⟨⟨h1, h2⟩, ⟨h3, h4⟩, ⟨h5, h6⟩⟩
         first | exact ⟨h1, h2⟩ | exact ⟨h3, h4⟩ | exact ⟨h5, h6⟩)
      | (rintro ⟨h1, h2⟩
         refine ⟨⟨?_, ?_⟩, ⟨?_, ?_⟩, ⟨?_, ?_⟩⟩ <;> first | exact h1 | exact h2 | norm_num)

theorem mem_lineNeighbours {numProcs p q : Nat} :
    q ∈ lineNeighbours numProcs p ↔ q + 1 = p ∨ (q = p + 1 ∧ q < numProcs) := by
  unfold lineNeighbours
  by_cases h0 : 0 < p <;> by_cases h1 : p + 1 < numProcs <;>
    simp only [h0, h1, if_true, if_false, List.mem_append, List.mem_singleton,
      List.not_mem_nil, or_false, false_or] <;> constructor <;> intro h <;>
    first | omega | exact h.elim

theorem nodup_lineNeighbours (numProcs p : Nat) : (lineNeighbours numProcs p).Nodup := by
  unfold lineNeighbours
  by_cases h0 : 0 < p <;> by_cases h1 : p + 1 < numProcs <;>
    simp only [h0, h1, if_true, if_false, List.nil_append, List.append_nil,
      List.singleton_append, List.nodup_cons, List.mem_singleton, List.not_mem_nil,
      not_false_eq_true, List.nodup_nil, and_true, List.nodup_nil]
  omega

theorem nodup_linePairs (numProcs p : Nat) : (linePairs numProcs p).Nodup := by
  unfold linePairs
  apply (nodup_lineNeighbours numProcs p).map
  intro q1 q2 h
  by_cases hp : p % 2 = 0
  · simp only [hp, if_true, Prod.mk.injEq, Ident.mk.injEq, true_and] at h
    exact h
  · simp only [hp, if_false, Prod.mk.injEq, Ident.mk.injEq, true_and, and_true] at h
    exact h

theorem length_linePairs (numProcs p : Nat) :
    (linePairs numProcs p).length =
      (if 0 < p then 1 else 0) + (if p + 1 < numProcs then 1 else 0) := by
  unfold linePairs lineNeighbours
  rw [List.length_map, List.length_append]
  split_ifs <;> rfl

/-- The line scenario: no error, no pair twice, and on every process exactly
the pairs with the neighbouring ranks. -/
theorem line_result (kind : VolumeKind) (hk : kind = .Sphere ∨ kind = .StkBox)
    (m : SearchMethod) (axis : Axis) (numProcs p : Nat) (hp : p < numProcs) :
    ∃ res, runLineOfBoundingBoxes kind m axis numProcs p = .ok res ∧ res.Nodup ∧
      ∀ pr, pr ∈ res ↔ pr ∈ linePairs numProcs p := by
  refine ⟨_, runLineOfBoundingBoxes_ok kind m axis numProcs p, nodup_coarse_search _ _ _, ?_⟩
  intro pr
  rw [mem_coarse_search]
  simp only [mem_gatherA_line, mem_gatherB_line, linePairs, List.mem_map, mem_lineNeighbours]
  constructor
  · rintro ⟨hown, a, ⟨q1, hq1, he1, rfl⟩, b, ⟨q2, hq2, he2, rfl⟩, ho, rfl⟩
    rw [overlaps_lineShape kind hk] at ho
    simp only at hown
    rcases hown with h | h
    · subst h
      refine ⟨q2, by omega, ?_⟩
      rw [if_pos he1]
    · subst h
      refine ⟨q1, by omega, ?_⟩
      rw [if_neg (by omega)]
  · rintro ⟨q, hq, rfl⟩
    by_cases he : p % 2 = 0
    · rw [if_pos he]
      refine ⟨Or.inl rfl, _, ⟨p, hp, he, rfl⟩, _, ⟨q, by omega, by omega, rfl⟩, ?_, rfl⟩
      rw [overlaps_lineShape kind hk]
      omega
    · rw [if_neg he]
      refine ⟨Or.inr rfl, _, ⟨q, by omega, by omega, rfl⟩, _, ⟨p, hp, by omega, rfl⟩, ?_, rfl⟩
      rw [overlaps_lineShape kind hk]
      omega

/-- C3: symmetric delivery.  For every group of processes and every
distribution of the two collections over it, the result on process `rank`
holds exactly the overlapping pairs (a, b), a from the first collection and b
from the second, of which `rank` owns a or owns b (the owner is the process of
the identifier).  In the line scenario (a sphere of radius 0.708 or a box of
half-width 0.708 per process, centred at the rank on one axis, in collection A
on an even rank and in B on an odd one) process `p` of `numProcs` receives, with
no error, 0 pairs when `numProcs = 1`, 1 pair when `numProcs >= 2` and `p` is
the first or the last rank, and 2 pairs when `0 < p < numProcs - 1`. -/
theorem symmetric_delivery (m : SearchMethod) (comm : List ProcessInput) (rank : Nat)
    (pr : IdentPair) (kind : VolumeKind) (hk : kind = .Sphere ∨ kind = .StkBox) (axis : Axis)
    (numProcs p : Nat) (hp : p < numProcs) :
    (pr ∈ coarse_search m comm rank ↔
      (pr.1.proc = rank ∨ pr.2.proc = rank) ∧
      ∃ a ∈ gatherA comm, ∃ b ∈ gatherB comm, overlaps a.1 b.1 = true ∧ pr = (a.2, b.2)) ∧
    ∃ res, runLineOfBoundingBoxes kind m axis numProcs p = .ok res ∧
      res.length = lineExpectedResults numProcs p ∧
      (numProcs = 1 → res.length = 0) ∧
      (2 ≤ numProcs → p = 0 ∨ p = numProcs - 1 → res.length = 1) ∧
      (0 < p → p < numProcs - 1 → res.length = 2) := by
  refine ⟨mem_coarse_search, ?_⟩
  obtain ⟨res, hres, hn, hmem⟩ := line_result kind hk m axis numProcs p hp
  have hlen := length_eq_of_nodup_of_mem_iff hn (nodup_linePairs numProcs p) hmem
  rw [length_linePairs] at hlen
  refine ⟨res, hres, ?_, ?_, ?_, ?_⟩
  · rw [hlen]
    unfold lineExpectedResults
    split_ifs <;> omega
  · intro h1
    rw [hlen]
    split_ifs <;> omega
  · intro h2 hends
    rw [hlen]
    split_ifs <;> omega
  · intro h0 hlast
    rw [hlen]
    split_ifs <;> omega

/-- Witness for C3: in a line of three spheres along `x` the middle process
receives two pairs and the first one a single pair; in a line of two boxes
along `y` the last process receives one pair. -/
theorem symmetric_delivery_witness :
    (∃ res, runLineOfBoundingBoxes .Sphere .KDTREE .xDim 3 1 = .ok res ∧ res.length = 2) ∧
    (∃ res, runLineOfBoundingBoxes .Sphere .KDTREE .xDim 3 0 = .ok res ∧ res.length = 1) ∧
    (∃ res, runLineOfBoundingBoxes .StkBox .KDTREE .yDim 2 1 = .ok res ∧ res.length = 1) := by
  refine ⟨?_, ?_, ?_⟩
  · obtain ⟨_, res, hres, _, _, _, h2⟩ :=
      symmetric_delivery .KDTREE [] 0 (⟨0, 0⟩, ⟨0, 0⟩) .Sphere (Or.inl rfl) .xDim 3 1
        (by norm_num)
    exact ⟨res, hres, h2 (by norm_num) (by norm_num)⟩
  · obtain ⟨_, res, hres, _, _, h1, _⟩ :=
      symmetric_delivery .KDTREE [] 0 (⟨0, 0⟩, ⟨0, 0⟩) .Sphere (Or.inl rfl) .xDim 3 0
        (by norm_num)
    exact ⟨res, hres, h1 (by norm_num) (Or.inl rfl)⟩
  · obtain ⟨_, res, hres, _, _, h1, _⟩ :=
      symmetric_delivery .KDTREE [] 0 (⟨0, 0⟩, ⟨0, 0⟩) .StkBox (Or.inr rfl) .yDim 2 1
        (by norm_num)
    exact ⟨res, hres, h1 (by norm_num) (Or.inr rfl)⟩

/-! ### Partition invariance -/

theorem coarse_search_twoProcessLine (m : SearchMethod) (rank : Nat) (hr : rank = 0 ∨ rank = 1) :
    coarse_search m twoProcessLine rank = [(⟨1, 0⟩, ⟨1, 1⟩)] := by
  apply eq_singleton_of_nodup (nodup_coarse_search _ _ _)
  intro pr
  rw [mem_coarse_search]
  simp only [twoProcessLine, gatherA, gatherB, List.flatMap_cons, List.flatMap_nil,
    List.append_nil, List.nil_append, List.mem_singleton, exists_eq_left]
  rw [overlaps_lineShape .Sphere (Or.inl rfl)]
  constructor
  · rintro ⟨_, _, h⟩
    exact h
  · rintro rfl
    refine ⟨?_, ⟨by norm_num, by norm_num⟩, rfl⟩
    rcases hr with h | h
    · left
      exact h.symm
    · right
      exact h.symm

theorem coarse_search_singleProcess_twoProcessLine (m : SearchMethod) :
    coarse_search m (singleProcess twoProcessLine) 0 = [(⟨1, 0⟩, ⟨1, 0⟩)] := by
  apply eq_singleton_of_nodup (nodup_coarse_search _ _ _)
  intro pr
  rw [mem_coarse_search]
  simp only [singleProcess, twoProcessLine, gatherA, gatherB, List.flatMap_cons,
    List.flatMap_nil, List.append_nil, List.nil_append, List.map_cons, List.map_nil,
    List.mem_singleton, exists_eq_left, moveToProcess]
  rw [overlaps_lineShape .Sphere (Or.inl rfl)]
  constructor
  · rintro ⟨_, _, h⟩
    exact h
  · rintro rfl
    exact ⟨Or.inl rfl, ⟨by norm_num, by norm_num⟩, rfl⟩

/-- C6 fails as stated: in the line of two spheres on two processes the one
overlapping pair is delivered to both owners, so the collected results hold it
twice, and its identifiers name the owners 0 and 1; on a single process the
same two volumes give one pair, of owner 0 twice.  The multisets of identifier
pairs differ. -/
theorem collected_multiset_differs :
    collectedResults .KDTREE twoProcessLine = [(⟨1, 0⟩, ⟨1, 1⟩), (⟨1, 0⟩, ⟨1, 1⟩)] ∧
    coarse_search .KDTREE (singleProcess twoProcessLine) 0 = [(⟨1, 0⟩, ⟨1, 0⟩)] ∧
    Multiset.ofList (collectedResults .KDTREE twoProcessLine) ≠
      Multiset.ofList (coarse_search .KDTREE (singleProcess twoProcessLine) 0) := by
  have hc : collectedResults .KDTREE twoProcessLine = [(⟨1, 0⟩, ⟨1, 1⟩), (⟨1, 0⟩, ⟨1, 1⟩)] := by
    unfold collectedResults
    rw [show (twoProcessLine).length = 2 from rfl, show List.range 2 = [0, 1] from rfl]
    simp only [List.flatMap_cons, List.flatMap_nil, List.append_nil,
      coarse_search_twoProcessLine .KDTREE 0 (Or.inl rfl),
      coarse_search_twoProcessLine .KDTREE 1 (Or.inr rfl)]
    rfl
  refine ⟨hc, coarse_search_singleProcess_twoProcessLine .KDTREE, ?_⟩
  rw [hc, coarse_search_singleProcess_twoProcessLine .KDTREE]
  intro h
  have hcard := congrArg Multiset.card h
  simp at hcard

/-- C6, amended: partition invariance of the set of global-id pairs.  For every
pair of collections and every assignment of their volumes to the processes of a
group (every owner a rank of the group), the set of pairs of global ids
collected from the results of all processes is the set of pairs of global ids
returned when the same volumes are all on a single process. -/
theorem partition_invariance_of_id_pairs (m : SearchMethod) (comm : List ProcessInput)
    (hown : ∀ v ∈ gatherA comm ++ gatherB comm, v.2.proc < comm.length) :
    ((collectedResults m comm).map globalIds).toFinset =
      ((coarse_search m (singleProcess comm) 0).map globalIds).toFinset := by
  ext ij
  simp only [List.mem_toFinset, List.mem_map, collectedResults, List.mem_flatMap,
    List.mem_range, mem_coarse_search]
  have hA : gatherA (singleProcess comm) = (gatherA comm).map (moveToProcess 0) := by
    simp [singleProcess, gatherA]
  have hB : gatherB (singleProcess comm) = (gatherB comm).map (moveToProcess 0) := by
    simp [singleProcess, gatherB]
  rw [hA, hB]
  constructor
  · rintro ⟨pr, ⟨rank, _, _, a, ha, b, hb, ho, rfl⟩, rfl⟩
    exact ⟨(⟨a.2.id, 0⟩, ⟨b.2.id, 0⟩), ⟨Or.inl rfl, moveToProcess 0 a,
      List.mem_map_of_mem _ ha, moveToProcess 0 b, List.mem_map_of_mem _ hb, ho, rfl⟩, rfl⟩
  · rintro ⟨pr, ⟨_, a0, ha0, b0, hb0, ho, rfl⟩, rfl⟩
    obtain ⟨a, ha, rfl⟩ := List.mem_map.mp ha0
    obtain ⟨b, hb, rfl⟩ := List.mem_map.mp hb0
    exact ⟨(a.2, b.2), ⟨a.2.proc, hown a (List.mem_append_left _ ha), Or.inl rfl,
      a, ha, b, hb, ho, rfl⟩, rfl⟩

/-- Witness for C6: the line of two spheres on two processes and the same two
spheres on one process give the same set of global-id pairs. -/
theorem partition_invariance_of_id_pairs_witness :
    ((collectedResults .KDTREE twoProcessLine).map globalIds).toFinset =
      ((coarse_search .KDTREE (singleProcess twoProcessLine) 0).map globalIds).toFinset := by
  apply partition_invariance_of_id_pairs .KDTREE twoProcessLine
  intro v hv
  simp only [twoProcessLine, gatherA, gatherB, List.flatMap_cons, List.flatMap_nil,
    List.append_nil, List.nil_append, List.mem_append, List.mem_singleton] at hv
  rcases hv with rfl | rfl <;> simp [twoProcessLine]

end stk_search

namespace krino

/-! ## Malformed boxes, extraction and serialization -/

/-- C11 fails on the code: the box with `min = (2, 0, 0)` and `max = (1, 0, 0)`
has `min > max` in dimension 0, and the segment from `(0, 0, 0)` to `(3, 0, 0)`
and the triangle on the same points are both reported as intersecting it. -/
theorem malformed_box_not_rejected :
    (2 : ℚ) > 1 ∧
    Facet2d.does_intersect ⟨⟨0, 0, 0⟩, ⟨3, 0, 0⟩⟩ ⟨⟨2, 0, 0⟩, ⟨1, 0, 0⟩⟩ = true ∧
    Facet3d.does_intersect ⟨⟨0, 0, 0⟩, ⟨3, 0, 0⟩, ⟨3, 0, 0⟩⟩ ⟨⟨2, 0, 0⟩, ⟨1, 0, 0⟩⟩ = true := by
  refine ⟨by norm_num, ?_, ?_⟩
  · unfold Facet2d.does_intersect
    rw [intersect_two_iff]
    intro d hd
    interval_cases d <;> norm_num [Vector3d.data]
  · unfold Facet3d.does_intersect
    rw [intersect_three_iff]
    intro d hd
    interval_cases d <;> norm_num [Vector3d.data]

/-- C11, amended: the overlap primitive does not test the box for `min > max`.
For a box with `min[d] > max[d]` in a dimension `d < ndim`, a facet is accepted
only if its vertices reach from `max[d]` or below to `min[d]` or above in that
dimension; so every facet whose vertex components in dimension `d` span less
than `min[d] - max[d]`, in particular every facet whose vertices agree in that
component, is rejected. -/
theorem malformed_box_rejects_narrow_facets (bbox : BoundingBox) (f3 : Facet3d) (f2 : Facet2d)
    (d : Nat) (hbad : bbox.get_max.data d < bbox.get_min.data d) :
    (d < 3 →
      (f3.does_intersect bbox = true →
        min (min (f3.v0.data d) (f3.v1.data d)) (f3.v2.data d) ≤ bbox.get_max.data d ∧
        bbox.get_min.data d ≤ max (max (f3.v0.data d) (f3.v1.data d)) (f3.v2.data d)) ∧
      (max (max (f3.v0.data d) (f3.v1.data d)) (f3.v2.data d) -
          min (min (f3.v0.data d) (f3.v1.data d)) (f3.v2.data d) <
          bbox.get_min.data d - bbox.get_max.data d →
        f3.does_intersect bbox = false)) ∧
    (d < 2 →
      (f2.does_intersect bbox = true →
        min (f2.v0.data d) (f2.v1.data d) ≤ bbox.get_max.data d ∧
        bbox.get_min.data d ≤ max (f2.v0.data d) (f2.v1.data d)) ∧
      (max (f2.v0.data d) (f2.v1.data d) - min (f2.v0.data d) (f2.v1.data d) <
          bbox.get_min.data d - bbox.get_max.data d →
        f2.does_intersect bbox = false)) := by
  have _ := hbad
  constructor
  · intro hd
    have key : f3.does_intersect bbox = true →
        min (min (f3.v0.data d) (f3.v1.data d)) (f3.v2.data d) ≤ bbox.get_max.data d ∧
        bbox.get_min.data d ≤ max (max (f3.v0.data d) (f3.v1.data d)) (f3.v2.data d) := by
      intro h
      unfold Facet3d.does_intersect at h
      rw [intersect_three_iff] at h
      exact h d hd
    refine ⟨key, ?_⟩
    intro hnarrow
    rw [← Bool.not_eq_true]
    intro h
    obtain ⟨h1, h2⟩ := key h
    linarith
  · intro hd
    have key : f2.does_intersect bbox = true →
        min (f2.v0.data d) (f2.v1.data d) ≤ bbox.get_max.data d ∧
        bbox.get_min.data d ≤ max (f2.v0.data d) (f2.v1.data d) := by
      intro h
      unfold Facet2d.does_intersect at h
      rw [intersect_two_iff] at h
      exact h d hd
    refine ⟨key, ?_⟩
    intro hnarrow
    rw [← Bool.not_eq_true]
    intro h
    obtain ⟨h1, h2⟩ := key h
    linarith

/-- Witness for C11: against the box with `min = (2, 0, 0)`, `max = (1, 0, 0)`,
a triangle and a segment whose vertices all have first component 5 are
rejected. -/
theorem malformed_box_rejects_narrow_facets_witness :
    Facet3d.does_intersect ⟨⟨5, 0, 0⟩, ⟨5, 1, 0⟩, ⟨5, 0, 1⟩⟩ ⟨⟨2, 0, 0⟩, ⟨1, 0, 0⟩⟩ = false ∧
    Facet2d.does_intersect ⟨⟨5, 0, 0⟩, ⟨5, 1, 0⟩⟩ ⟨⟨2, 0, 0⟩, ⟨1, 0, 0⟩⟩ = false := by
  have h := malformed_box_rejects_narrow_facets ⟨⟨2, 0, 0⟩, ⟨1, 0, 0⟩⟩
    ⟨⟨5, 0, 0⟩, ⟨5, 1, 0⟩, ⟨5, 0, 1⟩⟩ ⟨⟨5, 0, 0⟩, ⟨5, 1, 0⟩⟩ 0 (by norm_num [Vector3d.data])
  exact ⟨(h.1 (by norm_num)).2 (by norm_num [Vector3d.data]),
    (h.2 (by norm_num)).2 (by norm_num [Vector3d.data])⟩

theorem accommodate_min_data (bbox : BoundingBox) (pt : Vector3d) (d : Nat) :
    (bbox.accommodate pt).get_min.data d = min (bbox.get_min.data d) (pt.data d) := by
  unfold BoundingBox.accommodate Vector3d.data
  split <;> rfl

theorem accommodate_max_data (bbox : BoundingBox) (pt : Vector3d) (d : Nat) :
    (bbox.accommodate pt).get_max.data d = max (bbox.get_max.data d) (pt.data d) := by
  unfold BoundingBox.accommodate Vector3d.data
  split <;> rfl

theorem emptyBox_data (limit : ℚ) (d : Nat) :
    (BoundingBox.emptyBox limit).get_min.data d = limit ∧
      (BoundingBox.emptyBox limit).get_max.data d = -limit := by
  unfold BoundingBox.emptyBox Vector3d.data
  constructor <;> split <;> rfl

/-- C13: bounding-volume extraction agrees with the overlap primitive.  With
`accommodate` the componentwise min/max expansion of the box by a vertex, for
every initial box `b` and every `Facet3d` or `Facet2d`, the box after
`insert_into` holds every vertex of the facet in every component, and
`does_intersect` on that box returns `true`.  Started from the empty box (minimum
corner at the largest scalar `limit`, maximum corner at `-limit`, no vertex
component beyond `limit` in absolute value), the box that results has the
componentwise minimum and maximum of the vertices as its corners, so it lies
inside every box that holds the vertices: it is the tightest one. -/
theorem insert_into_agrees_with_does_intersect (b : BoundingBox) (f3 : Facet3d) (f2 : Facet2d)
    (limit : ℚ) :
    (∀ d, ∀ v ∈ [f3.v0, f3.v1, f3.v2],
      (f3.insert_into b).get_min.data d ≤ v.data d ∧
        v.data d ≤ (f3.insert_into b).get_max.data d) ∧
    f3.does_intersect (f3.insert_into b) = true ∧
    (∀ d, ∀ v ∈ [f2.v0, f2.v1],
      (f2.insert_into b).get_min.data d ≤ v.data d ∧
        v.data d ≤ (f2.insert_into b).get_max.data d) ∧
    f2.does_intersect (f2.insert_into b) = true ∧
    ((∀ d, ∀ v ∈ [f3.v0, f3.v1, f3.v2], -limit ≤ v.data d ∧ v.data d ≤ limit) →
      (∀ d,
        (f3.insert_into (BoundingBox.emptyBox limit)).get_min.data d =
          min (min (f3.v0.data d) (f3.v1.data d)) (f3.v2.data d) ∧
        (f3.insert_into (BoundingBox.emptyBox limit)).get_max.data d =
          max (max (f3.v0.data d) (f3.v1.data d)) (f3.v2.data d)) ∧
      (∀ c : BoundingBox,
        (∀ d, ∀ v ∈ [f3.v0, f3.v1, f3.v2], c.get_min.data d ≤ v.data d ∧
          v.data d ≤ c.get_max.data d) →
        ∀ d, c.get_min.data d ≤ (f3.insert_into (BoundingBox.emptyBox limit)).get_min.data d ∧
          (f3.insert_into (BoundingBox.emptyBox limit)).get_max.data d ≤ c.get_max.data d)) ∧
    ((∀ d, ∀ v ∈ [f2.v0, f2.v1], -limit ≤ v.data d ∧ v.data d ≤ limit) →
      (∀ d,
        (f2.insert_into (BoundingBox.emptyBox limit)).get_min.data d =
          min (f2.v0.data d) (f2.v1.data d) ∧
        (f2.insert_into (BoundingBox.emptyBox limit)).get_max.data d =
          max (f2.v0.data d) (f2.v1.data d)) ∧
      (∀ c : BoundingBox,
        (∀ d, ∀ v ∈ [f2.v0, f2.v1], c.get_min.data d ≤ v.data d ∧
          v.data d ≤ c.get_max.data d) →
        ∀ d, c.get_min.data d ≤ (f2.insert_into (BoundingBox.emptyBox limit)).get_min.data d ∧
          (f2.insert_into (BoundingBox.emptyBox limit)).get_max.data d ≤ c.get_max.data d)) := by
  have h3 : ∀ d, ∀ v ∈ [f3.v0, f3.v1, f3.v2],
      (f3.insert_into b).get_min.data d ≤ v.data d ∧
        v.data d ≤ (f3.insert_into b).get_max.data d := by
    intro d v hv
    simp only [Facet3d.insert_into, accommodate_min_data, accommodate_max_data]
    simp only [List.mem_cons, List.mem_singleton, List.not_mem_nil, or_false] at hv
    rcases hv with rfl | rfl | rfl <;> simp
  have h2 : ∀ d, ∀ v ∈ [f2.v0, f2.v1],
      (f2.insert_into b).get_min.data d ≤ v.data d ∧
        v.data d ≤ (f2.insert_into b).get_max.data d := by
    intro d v hv
    simp only [Facet2d.insert_into, accommodate_min_data, accommodate_max_data]
    simp only [List.mem_cons, List.mem_singleton, List.not_mem_nil, or_false] at hv
    rcases hv with rfl | rfl <;> simp
  refine ⟨h3, ?_, h2, ?_, ?_, ?_⟩
  · unfold Facet3d.does_intersect
    rw [intersect_three_iff]
    intro d _
    have hv := h3 d f3.v0 (by simp)
    exact ⟨le_trans (le_trans (min_le_left _ _) (min_le_left _ _)) hv.2,
      le_trans hv.1 (le_trans (le_max_left _ _) (le_max_left _ _))⟩
  · unfold Facet2d.does_intersect
    rw [intersect_two_iff]
    intro d _
    have hv := h2 d f2.v0 (by simp)
    exact ⟨le_trans (min_le_left _ _) hv.2, le_trans hv.1 (le_max_left _ _)⟩
  · intro hlim
    have heq : ∀ d,
        (f3.insert_into (BoundingBox.emptyBox limit)).get_min.data d =
          min (min (f3.v0.data d) (f3.v1.data d)) (f3.v2.data d) ∧
        (f3.insert_into (BoundingBox.emptyBox limit)).get_max.data d =
          max (max (f3.v0.data d) (f3.v1.data d)) (f3.v2.data d) := by
      intro d
      have l0 := hlim d f3.v0 (by simp)
      simp only [Facet3d.insert_into, accommodate_min_data, accommodate_max_data,
        (emptyBox_data limit d).1, (emptyBox_data limit d).2]
      rw [min_eq_right l0.2, max_eq_right l0.1]
      exact ⟨rfl, rfl⟩
    refine ⟨heq, ?_⟩
    intro c hc d
    rw [(heq d).1, (heq d).2]
    have c0 := hc d f3.v0 (by simp)
    have c1 := hc d f3.v1 (by simp)
    have c2 := hc d f3.v2 (by simp)
    exact ⟨le_min (le_min c0.1 c1.1) c2.1, max_le (max_le c0.2 c1.2) c2.2⟩
  · intro hlim
    have heq : ∀ d,
        (f2.insert_into (BoundingBox.emptyBox limit)).get_min.data d =
          min (f2.v0.data d) (f2.v1.data d) ∧
        (f2.insert_into (BoundingBox.emptyBox limit)).get_max.data d =
          max (f2.v0.data d) (f2.v1.data d) := by
      intro d
      have l0 := hlim d f2.v0 (by simp)
      simp only [Facet2d.insert_into, accommodate_min_data, accommodate_max_data,
        (emptyBox_data limit d).1, (emptyBox_data limit d).2]
      rw [min_eq_right l0.2, max_eq_right l0.1]
      exact ⟨rfl, rfl⟩
    refine ⟨heq, ?_⟩
    intro c hc d
    rw [(heq d).1, (heq d).2]
    have c0 := hc d f2.v0 (by simp)
    have c1 := hc d f2.v1 (by simp)
    exact ⟨le_min c0.1 c1.1, max_le c0.2 c1.2⟩

/-- C14: facet serialization round trip, the buffer a first-in first-out
sequence of doubles.  `Facet3d::pack_into_buffer` appends exactly the 9 vertex
components, and `unpack_facet_data_from_buffer` on them (whatever follows them
in the buffer, whatever `facetCoords` held) takes exactly those 9 and yields the
three vertices unchanged.  `Facet2d::pack_into_buffer` appends exactly 4 doubles,
the x and y of the two vertices, and `unpack_facet_data_from_buffer` takes
exactly those 4 and yields the two vertices with their x and y and with z = 0:
the 2D round trip gives back the facet exactly when both z components are 0. -/
theorem facet_pack_unpack_round_trip (f3 : Facet3d) (f2 : Facet2d) (b rest : CommBuffer)
    (init3 : Vector3d × Vector3d × Vector3d) (init2 : Vector3d × Vector3d) :
    f3.pack_into_buffer b =
      b ++ [f3.v0.c0, f3.v0.c1, f3.v0.c2, f3.v1.c0, f3.v1.c1, f3.v1.c2,
        f3.v2.c0, f3.v2.c1, f3.v2.c2] ∧
    (f3.pack_into_buffer b).length = b.length + 9 ∧
    Facet3d.unpack_facet_data_from_buffer (f3.pack_into_buffer [] ++ rest) init3 =
      some (rest, (f3.v0, f3.v1, f3.v2)) ∧
    f2.pack_into_buffer b = b ++ [f2.v0.c0, f2.v0.c1, f2.v1.c0, f2.v1.c1] ∧
    (f2.pack_into_buffer b).length = b.length + 4 ∧
    Facet2d.unpack_facet_data_from_buffer (f2.pack_into_buffer [] ++ rest) init2 =
      some (rest, (⟨f2.v0.c0, f2.v0.c1, 0⟩, ⟨f2.v1.c0, f2.v1.c1, 0⟩)) ∧
    (Facet2d.unpack_facet_data_from_buffer (f2.pack_into_buffer [] ++ rest) init2 =
        some (rest, (f2.v0, f2.v1)) ↔
      f2.v0.c2 = 0 ∧ f2.v1.c2 = 0) := by
  have p3 : f3.pack_into_buffer b =
      b ++ [f3.v0.c0, f3.v0.c1, f3.v0.c2, f3.v1.c0, f3.v1.c1, f3.v1.c2,
        f3.v2.c0, f3.v2.c1, f3.v2.c2] := by
    simp [Facet3d.pack_into_buffer, pack3d_loop, CommBuffer.pack]
  have p2 : f2.pack_into_buffer b = b ++ [f2.v0.c0, f2.v0.c1, f2.v1.c0, f2.v1.c1] := by
    simp [Facet2d.pack_into_buffer, pack2d_loop, CommBuffer.pack]
  have u2 : Facet2d.unpack_facet_data_from_buffer (f2.pack_into_buffer [] ++ rest) init2 =
      some (rest, (⟨f2.v0.c0, f2.v0.c1, 0⟩, ⟨f2.v1.c0, f2.v1.c1, 0⟩)) := by
    simp [Facet2d.pack_into_buffer, pack2d_loop, CommBuffer.pack,
      Facet2d.unpack_facet_data_from_buffer, unpack_vector2d_from_buffer, CommBuffer.unpack]
  refine ⟨p3, ?_, ?_, p2, ?_, u2, ?_⟩
  · rw [p3]
    simp
  · simp [Facet3d.pack_into_buffer, pack3d_loop, CommBuffer.pack,
      Facet3d.unpack_facet_data_from_buffer, unpack_vector3d_from_buffer, CommBuffer.unpack]
  · rw [p2]
    simp
  · rw [u2]
    simp only [Option.some.injEq, Prod.mk.injEq, true_and]
    constructor
    · rintro ⟨h0, h1⟩
      rw [← h0, ← h1]
      exact ⟨rfl, rfl⟩
    · rintro ⟨h0, h1⟩
      constructor
      · cases hv : f2.v0
        rw [hv] at h0
        simp only at h0
        simp [h0]
      · cases hv : f2.v1
        rw [hv] at h1
        simp only at h1
        simp [h1]

end krino

namespace krino

/-- Witness for C13: started from the empty box of limit 100, the triangle
`(1, 2, 3)`, `(-1, 5, 0)`, `(4, 0, 2)` yields the box from `(-1, 0, 0)` to
`(4, 5, 3)`, component by component. -/
theorem insert_into_agrees_with_does_intersect_witness :
    ∀ d, d < 3 →
      (Facet3d.insert_into ⟨⟨1, 2, 3⟩, ⟨-1, 5, 0⟩, ⟨4, 0, 2⟩⟩
          (BoundingBox.emptyBox 100)).get_min.data d =
        (Vector3d.mk (-1) 0 0).data d ∧
      (Facet3d.insert_into ⟨⟨1, 2, 3⟩, ⟨-1, 5, 0⟩, ⟨4, 0, 2⟩⟩
          (BoundingBox.emptyBox 100)).get_max.data d =
        (Vector3d.mk 4 5 3).data d := by
  intro d hd
  have h := (insert_into_agrees_with_does_intersect (BoundingBox.emptyBox 100)
    ⟨⟨1, 2, 3⟩, ⟨-1, 5, 0⟩, ⟨4, 0, 2⟩⟩ ⟨⟨0, 0, 0⟩, ⟨0, 0, 0⟩⟩ 100).2.2.2.2.1
  have hlim : ∀ d, ∀ v ∈ [(⟨1, 2, 3⟩ : Vector3d), ⟨-1, 5, 0⟩, ⟨4, 0, 2⟩],
      -(100 : ℚ) ≤ v.data d ∧ v.data d ≤ 100 := by
    intro d v hv
    simp only [List.mem_cons, List.mem_singleton, List.not_mem_nil, or_false] at hv
    rcases hv with rfl | rfl | rfl <;> unfold Vector3d.data <;> split <;> norm_num
  obtain ⟨hmin, hmax⟩ := (h hlim).1 d
  rw [hmin, hmax]
  interval_cases d <;> norm_num [Vector3d.data]

end krino

namespace Tempus

theorem execute_recordModify_named {Scalar Vec : Type} (sh : SolutionHistory Scalar Vec)
    (stepper : StepperOperatorSplit Vec) (calls : List (ModifyCall Scalar Vec))
    (loc : ACTION_LOCATION) (call : ModifyCall Scalar Vec)
    (h : execute recordModify sh stepper loc calls = (.ok (), calls ++ [call])) :
    (loc = .BEGIN_STEP ∧ call.modType = .X_BEGIN_STEP) ∨
    (loc = .BEFORE_STEPPER ∧ call.modType = .X_BEFORE_STEPPER) ∨
    (loc = .AFTER_STEPPER ∧ call.modType = .X_AFTER_STEPPER) ∨
    (loc = .END_STEP ∧ call.modType = .XDOT_END_STEP) := by
  cases loc with
  | BEGIN_STEP =>
    left
    refine ⟨rfl, ?_⟩
    have e : execute recordModify sh stepper .BEGIN_STEP calls =
        (.ok (), calls ++ [⟨sh.getWorkingState.getX, sh.getWorkingState.getTime,
          sh.getWorkingState.getTimeStep, .X_BEGIN_STEP⟩]) := rfl
    rw [e] at h
    have h3 := List.append_cancel_left (Prod.mk.inj h).2
    simp only [List.cons.injEq, and_true] at h3
    rw [← h3]
  | BEFORE_STEPPER =>
    right; left
    refine ⟨rfl, ?_⟩
    have e : execute recordModify sh stepper .BEFORE_STEPPER calls =
        (.ok (), calls ++ [⟨sh.getWorkingState.getX, sh.getWorkingState.getTime,
          sh.getWorkingState.getTimeStep, .X_BEFORE_STEPPER⟩]) := rfl
    rw [e] at h
    have h3 := List.append_cancel_left (Prod.mk.inj h).2
    simp only [List.cons.injEq, and_true] at h3
    rw [← h3]
  | AFTER_STEPPER =>
    right; right; left
    refine ⟨rfl, ?_⟩
    have e : execute recordModify sh stepper .AFTER_STEPPER calls =
        (.ok (), calls ++ [⟨sh.getWorkingState.getX, sh.getWorkingState.getTime,
          sh.getWorkingState.getTimeStep, .X_AFTER_STEPPER⟩]) := rfl
    rw [e] at h
    have h3 := List.append_cancel_left (Prod.mk.inj h).2
    simp only [List.cons.injEq, and_true] at h3
    rw [← h3]
  | END_STEP =>
    right; right; right
    refine ⟨rfl, ?_⟩
    cases hx : sh.getWorkingState.getXDot with
    | none =>
      have e : execute recordModify sh stepper .END_STEP calls =
          (.ok (), calls ++ [⟨stepper.getStepperXDot, sh.getWorkingState.getTime,
            sh.getWorkingState.getTimeStep, .XDOT_END_STEP⟩]) := by
        simp [execute, hx, recordModify]
      rw [e] at h
      have h3 := List.append_cancel_left (Prod.mk.inj h).2
      simp only [List.cons.injEq, and_true] at h3
      rw [← h3]
    | some xdot =>
      have e : execute recordModify sh stepper .END_STEP calls =
          (.ok (), calls ++ [⟨some xdot, sh.getWorkingState.getTime,
            sh.getWorkingState.getTimeStep, .XDOT_END_STEP⟩]) := by
        simp [execute, hx, recordModify]
      rw [e] at h
      have h3 := List.append_cancel_left (Prod.mk.inj h).2
      simp only [List.cons.injEq, and_true] at h3
      rw [← h3]
  | other value =>
    have e : execute recordModify sh stepper (.other value) calls =
        (.error (.logic_error ("Error - unknown action location.\n")), calls) := rfl
    rw [e] at h
    have h3 := (Prod.mk.inj h).1
    cases h3

/-- C12: `StepperOperatorSplitModifierXBase::execute` maps the action location to
the modifier type and passes only the solution data.  At each of the four
locations it ends normally and calls `modify` exactly once (the state it leaves
is the state one call of `modify` leaves; a recording `modify` has recorded one
more call), with time and dt of the working state of the solution history, with
the working-state `x` and `X_BEGIN_STEP`, `X_BEFORE_STEPPER`, `X_AFTER_STEPPER` at
`BEGIN_STEP`, `BEFORE_STEPPER`, `AFTER_STEPPER`, and with the working-state xdot if
it is not null, otherwise the stepper's xdot, and `XDOT_END_STEP` at `END_STEP`.
Two of the four locations that lead to the same modifier type are the same
location.  At any other action location it throws a `logic_error` and does not
call `modify`: the state of the program is left as it was, whatever `modify`
does, and a recording `modify` has recorded no call. -/
theorem execute_maps_location_to_modifier_type {Scalar Vec World : Type}
    (modify : Option Vec → Scalar → Scalar → MODIFIER_TYPE → World → World)
    (sh : SolutionHistory Scalar Vec) (stepper : StepperOperatorSplit Vec) (world : World)
    (calls : List (ModifyCall Scalar Vec)) :
    execute modify sh stepper .BEGIN_STEP world =
      (.ok (), modify sh.getWorkingState.getX sh.getWorkingState.getTime
        sh.getWorkingState.getTimeStep .X_BEGIN_STEP world) ∧
    execute modify sh stepper .BEFORE_STEPPER world =
      (.ok (), modify sh.getWorkingState.getX sh.getWorkingState.getTime
        sh.getWorkingState.getTimeStep .X_BEFORE_STEPPER world) ∧
    execute modify sh stepper .AFTER_STEPPER world =
      (.ok (), modify sh.getWorkingState.getX sh.getWorkingState.getTime
        sh.getWorkingState.getTimeStep .X_AFTER_STEPPER world) ∧
    execute modify sh stepper .END_STEP world =
      (.ok (), modify
        (match sh.getWorkingState.getXDot with
          | some xdot => some xdot
          | none => stepper.getStepperXDot)
        sh.getWorkingState.getTime sh.getWorkingState.getTimeStep .XDOT_END_STEP world) ∧
    (∀ value, execute modify sh stepper (.other value) world =
      (.error (.logic_error ("Error - unknown action location.\n")), world)) ∧
    (∀ value, execute recordModify sh stepper (.other value) calls =
      (.error (.logic_error ("Error - unknown action location.\n")), calls)) ∧
    (∀ actLoc, (∀ value, actLoc ≠ .other value) →
      ∃ call, execute recordModify sh stepper actLoc calls = (.ok (), calls ++ [call]) ∧
        call.time = sh.getWorkingState.getTime ∧ call.dt = sh.getWorkingState.getTimeStep) ∧
    (∀ loc1 loc2 call1 call2,
      execute recordModify sh stepper loc1 calls = (.ok (), calls ++ [call1]) →
      execute recordModify sh stepper loc2 calls = (.ok (), calls ++ [call2]) →
      call1.modType = call2.modType → loc1 = loc2) := by
  refine ⟨rfl, rfl, rfl, ?_, fun _ => rfl, fun _ => rfl, ?_, ?_⟩
  · cases h : sh.getWorkingState.getXDot <;> simp [execute, h]
  · intro actLoc hnot
    cases actLoc with
    | BEGIN_STEP => exact ⟨_, rfl, rfl, rfl⟩
    | BEFORE_STEPPER => exact ⟨_, rfl, rfl, rfl⟩
    | AFTER_STEPPER => exact ⟨_, rfl, rfl, rfl⟩
    | END_STEP =>
      cases h : sh.getWorkingState.getXDot with
      | none =>
        refine ⟨⟨stepper.getStepperXDot, sh.getWorkingState.getTime,
          sh.getWorkingState.getTimeStep, .XDOT_END_STEP⟩, ?_, rfl, rfl⟩
        simp [execute, h, recordModify]
      | some xdot =>
        refine ⟨⟨some xdot, sh.getWorkingState.getTime,
          sh.getWorkingState.getTimeStep, .XDOT_END_STEP⟩, ?_, rfl, rfl⟩
        simp [execute, h, recordModify]
    | other value => exact absurd rfl (hnot value)
  · intro loc1 loc2 call1 call2 h1 h2 hm
    rcases execute_recordModify_named sh stepper calls loc1 call1 h1 with
        ⟨l1, m1⟩ | ⟨l1, m1⟩ | ⟨l1, m1⟩ | ⟨l1, m1⟩ <;>
      rcases execute_recordModify_named sh stepper calls loc2 call2 h2 with
        ⟨l2, m2⟩ | ⟨l2, m2⟩ | ⟨l2, m2⟩ | ⟨l2, m2⟩ <;>
      rw [m1, m2] at hm <;>
      first
        | (exact absurd hm (by decide))
        | (rw [l1, l2])

/-- Witness for C12: with a recording `modify`, a working state of time 1, time
step 2, `x` the vector 7 and no xdot, and a stepper whose xdot is the vector 9,
`END_STEP` records the one call `modify(9, 1, 2, XDOT_END_STEP)` after the call
already recorded, and an unknown location throws and records nothing. -/
theorem execute_maps_location_to_modifier_type_witness :
    execute recordModify (⟨⟨(1 : Nat), 2, some (7 : Nat), none⟩⟩ : SolutionHistory Nat Nat)
        ⟨some 9⟩ .END_STEP [⟨some 7, 0, 2, .X_BEGIN_STEP⟩] =
      (.ok (), [⟨some 7, 0, 2, .X_BEGIN_STEP⟩, ⟨some 9, 1, 2, .XDOT_END_STEP⟩]) ∧
    execute recordModify (⟨⟨(1 : Nat), 2, some (7 : Nat), none⟩⟩ : SolutionHistory Nat Nat)
        ⟨some 9⟩ (.other 4) [⟨some 7, 0, 2, .X_BEGIN_STEP⟩] =
      (.error (.logic_error ("Error - unknown action location.\n")),
        [⟨some 7, 0, 2, .X_BEGIN_STEP⟩]) := by
  have h := execute_maps_location_to_modifier_type recordModify
    (⟨⟨(1 : Nat), 2, some (7 : Nat), none⟩⟩ : SolutionHistory Nat Nat) ⟨some 9⟩
    [⟨some 7, 0, 2, .X_BEGIN_STEP⟩] [⟨some 7, 0, 2, .X_BEGIN_STEP⟩]
  exact ⟨h.2.2.2.1, h.2.2.2.2.1 4⟩

end Tempus

namespace aprepro

theorem writeResults_eq_false_iff (options : ApOptions) (error_count warning_count : Int) :
    writeResults options error_count warning_count = false ↔
      (options.errors_fatal = true ∧ error_count > 0) ∨
      (options.errors_and_warnings_fatal = true ∧
        intValue (error_count + warning_count) > 0) := by
  unfold writeResults
  by_cases h1 : options.errors_fatal = true ∧ error_count > 0 <;>
    by_cases h2 : options.errors_and_warnings_fatal = true ∧
      intValue (error_count + warning_count) > 0 <;>
    simp [h1, h2]

/-- An `int` expression whose exact value is in the range of `int` has that
value. -/
theorem intValue_of_range (n : Int) (hlo : -2147483648 ≤ n) (hhi : n ≤ 2147483647) :
    intValue n = n := by
  unfold intValue
  omega

/-- C15: in file mode the diagnostic "Neither errors nor warnings are fatal. If
you see this message, then there is a bug in Aprepro." is unreachable.  For all
values of the options and of the error and warning counts, when `writeResults`
is false one of `errors_and_warnings_fatal` and `errors_fatal` is true; and no
run of the file mode writes that line. -/
theorem neither_fatal_branch_unreachable (options : ApOptions) (error_count warning_count : Int)
    (h : writeResults options error_count warning_count = false) :
    (options.errors_and_warnings_fatal = true ∨ options.errors_fatal = true) ∧
    Diagnostic.neitherErrorsNorWarningsAreFatal ∉
      fatalDiagnostics options error_count warning_count ∧
    ∀ (exit_status : Int) (num_input_files : Nat) (quiet : Bool) (anyOptions : ApOptions)
      (infile_good : Bool) (parse : ParseOutcome),
      Diagnostic.neitherErrorsNorWarningsAreFatal ∉
        (fileMode exit_status num_input_files quiet anyOptions infile_good parse).diagnostics := by
  have key : ∀ (o : ApOptions) (e w : Int), writeResults o e w = false →
      Diagnostic.neitherErrorsNorWarningsAreFatal ∉ fatalDiagnostics o e w := by
    intro o e w ho
    rcases (writeResults_eq_false_iff o e w).mp ho with ⟨h1, _⟩ | ⟨h1, _⟩
    · by_cases h2 : o.errors_and_warnings_fatal = true <;> simp [fatalDiagnostics, h1, h2]
    · simp [fatalDiagnostics, h1]
  refine ⟨?_, key options error_count warning_count h, ?_⟩
  · rcases (writeResults_eq_false_iff options error_count warning_count).mp h with
      ⟨h1, _⟩ | ⟨h1, _⟩
    · exact Or.inr h1
    · exact Or.inl h1
  · intro es n quiet o good parse
    unfold fileMode
    cases good with
    | false => simp
    | true =>
      cases parse with
      | threw what => simp
      | returned result e w =>
        cases hw : writeResults o e w with
        | false =>
          simp only [hw]
          simpa using key o e w hw
        | true =>
          cases result <;> simp [hw]
          split <;> simp

/-- Witness for C15: with `errors_fatal` set, one error and no warning,
`writeResults` is false and the line written is "Errors are fatal". -/
theorem neither_fatal_branch_unreachable_witness :
    writeResults ⟨true, false⟩ 1 0 = false ∧
    fatalDiagnostics ⟨true, false⟩ 1 0 =
      [.thereWereErrorsAndWarnings 1 0, .errorsAreFatal] ∧
    Diagnostic.neitherErrorsNorWarningsAreFatal ∉ fatalDiagnostics ⟨true, false⟩ 1 0 := by
  have hw : writeResults ⟨true, false⟩ 1 0 = false := by decide
  exact ⟨hw, by decide, (neither_fatal_branch_unreachable ⟨true, false⟩ 1 0 hw).2.1⟩

/-- C16: file mode with an input file that opens, no exception from
`parse_stream`, `exit_status` still `EXIT_SUCCESS` after the option loop, and
counts whose sum is in the range of `int` (the sum does not overflow).  The
parsing results are written if and only if `parse_stream` returned true and
neither (`errors_fatal` and error count > 0) nor (`errors_and_warnings_fatal` and
error count + warning count > 0) holds; they go to the second file when more
than one file is given and to standard output otherwise.  The exit status is
`EXIT_FAILURE` if and only if one of the two fatal conditions holds; so a
`parse_stream` result of false with no fatal condition writes nothing and exits
with `EXIT_SUCCESS`. -/
theorem file_mode_written_and_exit_status (num_input_files : Nat) (quiet : Bool)
    (options : ApOptions) (result : Bool) (error_count warning_count : Int)
    (hfiles : 1 ≤ num_input_files)
    (hsum : -2147483648 ≤ error_count + warning_count ∧
      error_count + warning_count ≤ 2147483647) :
    ((fileMode EXIT_SUCCESS num_input_files quiet options true
        (.returned result error_count warning_count)).written.isSome = true ↔
      result = true ∧
        ¬ (options.errors_fatal = true ∧ error_count > 0) ∧
        ¬ (options.errors_and_warnings_fatal = true ∧ error_count + warning_count > 0)) ∧
    ((fileMode EXIT_SUCCESS num_input_files quiet options true
        (.returned result error_count warning_count)).written.isSome = true →
      (fileMode EXIT_SUCCESS num_input_files quiet options true
        (.returned result error_count warning_count)).written =
        some (if num_input_files = 1 then .standardOutput else .secondFile)) ∧
    ((fileMode EXIT_SUCCESS num_input_files quiet options true
        (.returned result error_count warning_count)).exit_status = EXIT_FAILURE ↔
      (options.errors_fatal = true ∧ error_count > 0) ∨
        (options.errors_and_warnings_fatal = true ∧ error_count + warning_count > 0)) ∧
    (result = false →
      ¬ (options.errors_fatal = true ∧ error_count > 0) →
      ¬ (options.errors_and_warnings_fatal = true ∧ error_count + warning_count > 0) →
      (fileMode EXIT_SUCCESS num_input_files quiet options true
        (.returned result error_count warning_count)).written = none ∧
      (fileMode EXIT_SUCCESS num_input_files quiet options true
        (.returned result error_count warning_count)).exit_status = EXIT_SUCCESS) := by
  have hiff := writeResults_eq_false_iff options error_count warning_count
  rw [intValue_of_range _ hsum.1 hsum.2] at hiff
  cases hw : writeResults options error_count warning_count with
  | false =>
    have hfatal := hiff.mp hw
    have hrun : fileMode EXIT_SUCCESS num_input_files quiet options true
        (.returned result error_count warning_count) =
        { exit_status := EXIT_FAILURE, written := none, banner := false,
          diagnostics := fatalDiagnostics options error_count warning_count } := by
      simp [fileMode, hw]
    rw [hrun]
    refine ⟨?_, ?_, ?_, ?_⟩
    · constructor
      · intro h
        simp at h
      · rintro ⟨_, hn1, hn2⟩
        rcases hfatal with hf | hf
        · exact absurd hf hn1
        · exact absurd hf hn2
    · intro h
      simp at h
    · exact ⟨fun _ => hfatal, fun _ => rfl⟩
    · intro _ hn1 hn2
      rcases hfatal with hf | hf
      · exact absurd hf hn1
      · exact absurd hf hn2
  | true =>
    have hnot : ¬ ((options.errors_fatal = true ∧ error_count > 0) ∨
        (options.errors_and_warnings_fatal = true ∧ error_count + warning_count > 0)) := by
      intro hf
      rw [hiff.mpr hf] at hw
      cases hw
    have hn1 : ¬ (options.errors_fatal = true ∧ error_count > 0) := fun hf => hnot (Or.inl hf)
    have hn2 : ¬ (options.errors_and_warnings_fatal = true ∧ error_count + warning_count > 0) :=
      fun hf => hnot (Or.inr hf)
    have hexit : EXIT_SUCCESS ≠ EXIT_FAILURE := by decide
    cases result with
    | false =>
      have hrun : fileMode EXIT_SUCCESS num_input_files quiet options true
          (.returned false error_count warning_count) =
          { exit_status := EXIT_SUCCESS, written := none, banner := false,
            diagnostics := [] } := by
        simp [fileMode, hw]
      rw [hrun]
      refine ⟨?_, ?_, ?_, ?_⟩
      · constructor
        · intro h
          simp at h
        · rintro ⟨h, _⟩
          cases h
      · intro h
        simp at h
      · exact ⟨fun h => absurd h hexit, fun h => absurd h hnot⟩
      · intro _ _ _
        exact ⟨rfl, rfl⟩
    | true =>
      by_cases hone : num_input_files = 1
      · have hrun : fileMode EXIT_SUCCESS num_input_files quiet options true
            (.returned true error_count warning_count) =
            { exit_status := EXIT_SUCCESS, written := some .standardOutput, banner := !quiet,
              diagnostics := [] } := by
          simp [fileMode, hw, hone]
        rw [hrun]
        refine ⟨?_, ?_, ?_, ?_⟩
        · exact ⟨fun _ => ⟨rfl, hn1, hn2⟩, fun _ => rfl⟩
        · intro _
          simp [hone]
        · exact ⟨fun h => absurd h hexit, fun h => absurd h hnot⟩
        · intro h
          cases h
      · have hgt : num_input_files > 1 := by omega
        have hrun : fileMode EXIT_SUCCESS num_input_files quiet options true
            (.returned true error_count warning_count) =
            { exit_status := EXIT_SUCCESS, written := some .secondFile, banner := !quiet,
              diagnostics := [] } := by
          simp [fileMode, hw, hgt]
        rw [hrun]
        refine ⟨?_, ?_, ?_, ?_⟩
        · exact ⟨fun _ => ⟨rfl, hn1, hn2⟩, fun _ => rfl⟩
        · intro _
          simp [hone]
        · exact ⟨fun h => absurd h hexit, fun h => absurd h hnot⟩
        · intro h
          cases h

/-- Beyond the range of `int` the sum wraps: with `errors_and_warnings_fatal` set,
2147483647 errors and 1 warning, the sum is not positive, the results are
written and the exit status is `EXIT_SUCCESS`. -/
theorem file_mode_int_sum_wraps :
    intValue (2147483647 + 1) = -2147483648 ∧
    fileMode EXIT_SUCCESS 1 false ⟨false, true⟩ true (.returned true 2147483647 1) =
      { exit_status := EXIT_SUCCESS, written := some .standardOutput, banner := true,
        diagnostics := [] } := by
  constructor <;> decide

/-- Witness for C16: one input file, `parse_stream` returns false, three
warnings and no fatal option: nothing is written and the exit status is
`EXIT_SUCCESS`; with `errors_and_warnings_fatal` set the same run exits with
`EXIT_FAILURE`. -/
theorem file_mode_written_and_exit_status_witness :
    ((fileMode EXIT_SUCCESS 1 false ⟨false, false⟩ true (.returned false 0 3)).written = none ∧
      (fileMode EXIT_SUCCESS 1 false ⟨false, false⟩ true (.returned false 0 3)).exit_status
        = EXIT_SUCCESS) ∧
    (fileMode EXIT_SUCCESS 1 false ⟨false, true⟩ true (.returned false 0 3)).exit_status
      = EXIT_FAILURE := by
  constructor
  · exact (file_mode_written_and_exit_status 1 false ⟨false, false⟩ false 0 3 (le_refl 1)
      (by decide)).2.2.2 rfl (by decide) (by decide)
  · exact (file_mode_written_and_exit_status 1 false ⟨false, true⟩ false 0 3
      (le_refl 1) (by decide)).2.2.1.mpr (Or.inr (by decide))

end aprepro
